import Mathlib

/-!
# Verification of the kicad_format symbol-library conversion core

This file gives a shallow embedding, in Lean 4, of the s-expression
conversion core of the `kicad_format` crate (symbol-library format), and
proves or refutes the specified properties about it.

The embedding covers:

* the generic token tree (`Sexpr`) and the sequential token cursor with its
  `expect…`/`maybe…` operations (`convert_ref.rs`);
* the owning symbol-library parser and round-trip serializer
  (`symbol_library.rs`);
* the zero-copy fast parser (`symbol_library_fast.rs`);
* the property-key string interner (`string_interner.rs`).

Machine numbers: the source stores numeric tokens as `f32`.  Numeric tokens
are embedded as `ℚ`; the `as u32`/`as i32`/`as i16` casts of the source are
embedded explicitly as truncate-and-saturate functions on `ℚ`.

Code of the repository that is not part of the sources at hand (the owning
cursor of `convert.rs`, the leaf entity types of `common/symbol.rs`, and the
constructors of the external `kicad_sexpr` crate) is modelled from the
specification; each such definition carries a doc comment starting with
`Modelled from the spec:`.
-/

namespace Kicad

/-- The generic parenthesized token tree produced by the external tokenizer
(`kicad_sexpr::Sexpr`): bare symbol, quoted string, numeric literal, or
nested list. -/
inductive Sexpr where
  | symbol : String → Sexpr
  | str : String → Sexpr
  | num : ℚ → Sexpr
  | list : List Sexpr → Sexpr
  deriving Repr

/-- Decidable equality of token trees (hand-rolled because of the nested
`List Sexpr`). -/
def Sexpr.decEq : (a b : Sexpr) → Decidable (a = b)
  | .symbol s, .symbol t =>
    match decEq' : decide (s = t) with
    | true => .isTrue (by simp_all)
    | false => .isFalse (by simp_all)
  | .str s, .str t =>
    match decEq' : decide (s = t) with
    | true => .isTrue (by simp_all)
    | false => .isFalse (by simp_all)
  | .num s, .num t =>
    match decEq' : decide (s = t) with
    | true => .isTrue (by simp_all)
    | false => .isFalse (by simp_all)
  | .list xs, .list ys =>
    match listDecEq xs ys with
    | .isTrue h => .isTrue (by simp_all)
    | .isFalse h => .isFalse (by simp_all)
  | .symbol _, .str _ => .isFalse (by simp)
  | .symbol _, .num _ => .isFalse (by simp)
  | .symbol _, .list _ => .isFalse (by simp)
  | .str _, .symbol _ => .isFalse (by simp)
  | .str _, .num _ => .isFalse (by simp)
  | .str _, .list _ => .isFalse (by simp)
  | .num _, .symbol _ => .isFalse (by simp)
  | .num _, .str _ => .isFalse (by simp)
  | .num _, .list _ => .isFalse (by simp)
  | .list _, .symbol _ => .isFalse (by simp)
  | .list _, .str _ => .isFalse (by simp)
  | .list _, .num _ => .isFalse (by simp)
where
  listDecEq : (xs ys : List Sexpr) → Decidable (xs = ys)
    | [], [] => .isTrue rfl
    | [], _ :: _ => .isFalse (by simp)
    | _ :: _, [] => .isFalse (by simp)
    | x :: xs, y :: ys =>
      match Sexpr.decEq x y, listDecEq xs ys with
      | .isTrue h1, .isTrue h2 => .isTrue (by simp_all)
      | .isFalse h1, _ => .isFalse (by simp_all)
      | _, .isFalse h2 => .isFalse (by simp_all)

instance : DecidableEq Sexpr := Sexpr.decEq

/-- The token kinds named in `UnexpectedSexprType` errors
(`crate::SexprKind`). -/
inductive SexprKind where
  | list
  | symbol
  | string
  | number
  deriving DecidableEq, Repr

/-- The error taxonomy of the conversion core (`crate::KiCadParseError`),
restricted to the variants exercised by the symbol-library format. -/
inductive Err where
  | unexpectedEndOfList
  | unexpectedSexprType (expected : SexprKind)
  | nonMatchingSymbol (found expected : String)
  | invalidEnumValue (value enumName : String)
  | expectedEndOfList (found : Sexpr)
  | libraryIdMalformed (s : String)
  deriving DecidableEq, Repr

deriving instance DecidableEq for Except

/-- A cursor over the sibling tokens at one nesting level; the position of
the Rust cursor is represented by the list of not-yet-consumed tokens. -/
abbrev Cursor := List Sexpr

@[simp]
theorem ok_bind {ε α β : Type} (a : α) (f : α → Except ε β) :
    (Except.ok a : Except ε α) >>= f = f a := rfl

@[simp]
theorem error_bind {ε α β : Type} (e : ε) (f : α → Except ε β) :
    (Except.error e : Except ε α) >>= f = .error e := rfl

@[simp]
theorem pure_eq_ok {ε α : Type} (a : α) : (pure a : Except ε α) = .ok a := rfl

@[simp]
theorem ok_map {ε α β : Type} (f : α → β) (a : α) :
    (Except.ok a : Except ε α).map f = .ok (f a) := rfl

@[simp]
theorem error_map {ε α β : Type} (f : α → β) (e : ε) :
    (Except.error e : Except ε α).map f = .error e := rfl

/-- `ParserRef::expect_next`: consume and return the next token, or fail
with `UnexpectedEndOfList`. -/
def expectNext : Cursor → Except Err (Sexpr × Cursor)
  | [] => .error .unexpectedEndOfList
  | t :: ts => .ok (t, ts)

/-- `ParserRef::expect_list`: consume one token, require it to be a list,
and return the child cursor over its contents. -/
def expectList (c : Cursor) : Except Err (Cursor × Cursor) := do
  let (t, rest) ← expectNext c
  match t with
  | .list l => .ok (l, rest)
  | _ => .error (.unexpectedSexprType .list)

/-- `ParserRef::expect_symbol`: consume one token, require it to be a bare
symbol, and return its text. -/
def expectSymbol (c : Cursor) : Except Err (String × Cursor) := do
  let (t, rest) ← expectNext c
  match t with
  | .symbol s => .ok (s, rest)
  | _ => .error (.unexpectedSexprType .symbol)

/-- `ParserRef::expect_string`: consume one token, require it to be a
quoted string, and return its text. -/
def expectString (c : Cursor) : Except Err (String × Cursor) := do
  let (t, rest) ← expectNext c
  match t with
  | .str s => .ok (s, rest)
  | _ => .error (.unexpectedSexprType .string)

/-- `ParserRef::expect_number`: consume one token, require it to be a
numeric literal, and return its value. -/
def expectNumber (c : Cursor) : Except Err (ℚ × Cursor) := do
  let (t, rest) ← expectNext c
  match t with
  | .num n => .ok (n, rest)
  | _ => .error (.unexpectedSexprType .number)

/-- `ParserRef::expect_symbol_matching`: exact symbol-value match or
`NonMatchingSymbol { found, expected }`. -/
def expectSymbolMatching (expected : String) (c : Cursor) : Except Err Cursor := do
  let (s, rest) ← expectSymbol c
  if s = expected then .ok rest
  else .error (.nonMatchingSymbol s expected)

/-- `ParserRef::expect_list_with_name`: `expect_list`, then require its
first child to be the given symbol; returns the child cursor positioned
after that symbol. -/
def expectListWithName (name : String) (c : Cursor) : Except Err (Cursor × Cursor) := do
  let (l, rest) ← expectList c
  let l ← expectSymbolMatching name l
  .ok (l, rest)

/-- `SexprList::first().and_then(as_symbol)`: the text of the first child
when it is a bare symbol. -/
def firstSymbol : Cursor → Option String
  | .symbol s :: _ => some s
  | _ => none

/-- `ParserRef::maybe_list_with_name`: peek; if the next token is a list
whose first child is the given symbol, consume it and return the child
cursor positioned after that symbol, else consume nothing. -/
def maybeListWithName (name : String) (c : Cursor) : Option Cursor × Cursor :=
  match c with
  | .list l :: rest =>
    match firstSymbol l with
    | some s => if s = name then (some (l.drop 1), rest) else (none, c)
    | none => (none, c)
  | _ => (none, c)

/-- `ParserRef::expect_string_with_name`: `expect_list_with_name`, then one
string from the child cursor (the rest of the child is dropped). -/
def expectStringWithName (name : String) (c : Cursor) : Except Err (String × Cursor) := do
  let (l, rest) ← expectListWithName name c
  let (s, _) ← expectString l
  .ok (s, rest)

/-- `ParserRef::maybe_string_with_name`: `maybe_list_with_name`, then
`expect_string(...).ok()` — a parse failure inside the consumed list is
swallowed into `None`. -/
def maybeStringWithName (name : String) (c : Cursor) : Option String × Cursor :=
  match maybeListWithName name c with
  | (some l, rest) =>
    match expectString l with
    | .ok (s, _) => (some s, rest)
    | .error _ => (none, rest)
  | (none, rest) => (none, rest)

/-- `ParserRef::expect_number_with_name`: `expect_list_with_name`, then one
number from the child cursor (the rest of the child is dropped). -/
def expectNumberWithName (name : String) (c : Cursor) : Except Err (ℚ × Cursor) := do
  let (l, rest) ← expectListWithName name c
  let (n, _) ← expectNumber l
  .ok (n, rest)

/-- `ParserRef::maybe_number_with_name`: `maybe_list_with_name`, then
`expect_number(...).ok()` — a parse failure inside the consumed list is
swallowed into `None`. -/
def maybeNumberWithName (name : String) (c : Cursor) : Option ℚ × Cursor :=
  match maybeListWithName name c with
  | (some l, rest) =>
    match expectNumber l with
    | .ok (n, _) => (some n, rest)
    | .error _ => (none, rest)
  | (none, rest) => (none, rest)

/-- `ParserRef::maybe_number`: consume a leading numeric literal when
present. -/
def maybeNumber (c : Cursor) : Option ℚ × Cursor :=
  match c with
  | .num n :: rest => (some n, rest)
  | _ => (none, c)

/-- `ParserRef::maybe_symbol_matching`: consume a leading symbol equal to
the expected text when present; report whether it was consumed. -/
def maybeSymbolMatching (expected : String) (c : Cursor) : Bool × Cursor :=
  match c with
  | .symbol s :: rest => if s = expected then (true, rest) else (false, c)
  | _ => (false, c)

/-- `ParserRef::expect_end`: require the cursor to be exhausted; otherwise
fail with `ExpectedEndOfList` carrying the offending token. -/
def expectEnd : Cursor → Except Err Unit
  | [] => .ok ()
  | t :: _ => .error (.expectedEndOfList t)

/-- `ParserRef::maybe_empty_list_with_name`: `maybe_list_with_name`, then
`expect_end().is_ok()`; note a non-empty list of that name is consumed and
reported as `false`. -/
def maybeEmptyListWithName (name : String) (c : Cursor) : Bool × Cursor :=
  match maybeListWithName name c with
  | (some l, rest) => (l.isEmpty, rest)
  | (none, rest) => (false, rest)

/-- `ParserRef::expect_bool_with_name`: `expect_list_with_name`, then a
symbol in `{yes, no, true, false}`; any other symbol fails with
`InvalidEnumValue { value, enum_name: "bool" }`. -/
def expectBoolWithName (name : String) (c : Cursor) : Except Err (Bool × Cursor) := do
  let (l, rest) ← expectListWithName name c
  let (v, _) ← expectSymbol l
  match v with
  | "yes" => .ok (true, rest)
  | "no" => .ok (false, rest)
  | "true" => .ok (true, rest)
  | "false" => .ok (false, rest)
  | _ => .error (.invalidEnumValue v "bool")

/-- `ParserRef::maybe_bool_with_name`: `maybe_list_with_name`, then a
symbol in `{yes, no}`; any other symbol fails with `InvalidEnumValue`. -/
def maybeBoolWithName (name : String) (c : Cursor) : Except Err (Option Bool × Cursor) :=
  match maybeListWithName name c with
  | (some l, rest) => do
    let (v, _) ← expectSymbol l
    match v with
    | "yes" => .ok (some true, rest)
    | "no" => .ok (some false, rest)
    | _ => .error (.invalidEnumValue v "bool")
  | (none, rest) => .ok (none, rest)

/-- `ParserRef::maybe::<T>`: peek; return absent without consuming when the
next token is missing, is not a list, or fails `T`'s presence test;
otherwise consume the list and fully parse it with `T`'s parser,
propagating its failure. -/
def maybeGeneric {α : Type} (parse : Cursor → Except Err α) (present : Cursor → Bool)
    (c : Cursor) : Except Err (Option α × Cursor) :=
  match c with
  | [] => .ok (none, [])
  | t :: rest =>
    match t with
    | .list l =>
      if present l then
        match parse l with
        | .ok a => .ok (some a, rest)
        | .error e => .error e
      else .ok (none, t :: rest)
    | _ => .ok (none, t :: rest)

/-- `ParserRef::expect_many::<T>`: repeat `maybe::<T>` until it yields
absent, collecting the parsed items; a parse failure aborts the whole
sequence. -/
def expectManyGeneric {α : Type} (parse : Cursor → Except Err α) (present : Cursor → Bool) :
    Cursor → Except Err (List α × Cursor)
  | [] => .ok ([], [])
  | t :: rest =>
    match t with
    | .list l =>
      if present l then
        match parse l with
        | .error e => .error e
        | .ok a =>
          match expectManyGeneric parse present rest with
          | .error e => .error e
          | .ok (as, fin) => .ok (a :: as, fin)
      else .ok ([], t :: rest)
    | _ => .ok ([], t :: rest)

/-- The structural recursion above satisfies the defining loop of the
source: one `maybe` step, then recurse on a success. -/
theorem expectManyGeneric_eq_maybe_step {α : Type} (parse : Cursor → Except Err α)
    (present : Cursor → Bool) (c : Cursor) :
    expectManyGeneric parse present c =
      match maybeGeneric parse present c with
      | .error e => .error e
      | .ok (none, c') => .ok ([], c')
      | .ok (some a, c') =>
        match expectManyGeneric parse present c' with
        | .error e => .error e
        | .ok (as, fin) => .ok (a :: as, fin) := by
  match c with
  | [] => rfl
  | t :: rest =>
    match t with
    | .list l =>
      simp only [expectManyGeneric, maybeGeneric]
      by_cases h : present l = true
      · simp only [h, if_true]
        cases parse l <;> rfl
      · simp only [Bool.not_eq_true] at h
        simp [h]
    | .symbol s => rfl
    | .str s => rfl
    | .num n => rfl

/-! ## String interning (`string_interner.rs`) -/

/-- `InternedString`: a copy-on-write string; `fromStatic` models
`Cow::Borrowed` (a shared static instance) and `fromString` models
`Cow::Owned` (a fresh allocation). -/
inductive InternedString where
  | fromStatic : String → InternedString
  | fromString : String → InternedString
  deriving DecidableEq, Repr

/-- `InternedString::as_str`: the string content, ignoring provenance. -/
def InternedString.asStr : InternedString → String
  | .fromStatic s => s
  | .fromString s => s

/-- The derived `PartialEq` of `InternedString` compares the underlying
`Cow<str>` values as strings, ignoring the borrowed/owned distinction. -/
def InternedString.beqContent (a b : InternedString) : Bool :=
  a.asStr == b.asStr

/-- The allow-list installed by `init_property_keys`; each listed key maps
to one shared static instance whose content is the key itself. -/
def propertyKeys : List String :=
  ["Value", "Reference", "Footprint", "Datasheet", "ki_keywords",
   "ki_description", "ki_fp_filters", "D", "in_bom", "on_board",
   "pin_numbers", "power", "extends"]

/-- `intern_property_key`: the shared static instance for listed keys, a
fresh owned instance for any other key. -/
def internPropertyKey (key : String) : InternedString :=
  if key ∈ propertyKeys then .fromStatic key else .fromString key

/-! ## Numeric casts

The source parses numeric tokens as `f32` and converts with Rust `as`
casts, which truncate toward zero and saturate at the integer type's
bounds. -/

/-- Truncation toward zero on `ℚ` (the rounding of Rust float-to-integer
`as` casts). -/
def ratTrunc (q : ℚ) : ℤ :=
  if 0 ≤ q then ⌊q⌋ else -⌊-q⌋

/-- Saturate an integer into `[lo, hi]`. -/
def intClamp (lo hi n : ℤ) : ℤ := max lo (min hi n)

/-- Rust `f32 as u32` on the `ℚ` embedding. -/
def ratToU32 (q : ℚ) : ℕ := (intClamp 0 (2 ^ 32 - 1) (ratTrunc q)).toNat

/-- Rust `f32 as i32` on the `ℚ` embedding. -/
def ratToI32 (q : ℚ) : ℤ := intClamp (-(2 ^ 31)) (2 ^ 31 - 1) (ratTrunc q)

/-- Rust `f32 as i16` on the `ℚ` embedding. -/
def ratToI16 (q : ℚ) : ℤ := intClamp (-(2 ^ 15)) (2 ^ 15 - 1) (ratTrunc q)

/-! ## Serialization builders

Modelled from the spec: the `Sexpr::…_with_name` constructors live in the
external `kicad_sexpr` crate (the tokenizer collaborator, out of scope of
the repository); they build a list node headed by the keyword symbol, with
`None` children omitted, and booleans rendered as the symbols
`yes`/`no`. -/

/-- Modelled from the spec: `Sexpr::list_with_name` — a list headed by the
keyword symbol, dropping absent children. -/
def Sexpr.listWithName (name : String) (children : List (Option Sexpr)) : Sexpr :=
  .list (.symbol name :: children.filterMap id)

/-- Modelled from the spec: `Sexpr::number_with_name`. -/
def Sexpr.numberWithName (name : String) (n : ℚ) : Sexpr :=
  .list [.symbol name, .num n]

/-- A numeric token holding an integer value. -/
def Sexpr.intNum (i : ℤ) : Sexpr := .num (i : ℚ)

/-- A named numeric node holding an integer value. -/
def Sexpr.intNumberWithName (name : String) (i : ℤ) : Sexpr :=
  Sexpr.numberWithName name (i : ℚ)

/-- Modelled from the spec: `Sexpr::string_with_name`. -/
def Sexpr.stringWithName (name : String) (s : String) : Sexpr :=
  .list [.symbol name, .str s]

/-- Modelled from the spec: `Sexpr::symbol_with_name`. -/
def Sexpr.symbolWithName (name : String) (s : String) : Sexpr :=
  .list [.symbol name, .symbol s]

/-- Modelled from the spec: `Sexpr::bool_with_name` — booleans are spelled
`yes`/`no`. -/
def Sexpr.boolWithName (name : String) (b : Bool) : Sexpr :=
  .list [.symbol name, .symbol (if b then "yes" else "no")]

/-! ## Library identifiers

Modelled from the spec: `LibraryId` lives in the missing
`common/symbol.rs`; a string of the form `library:name` is parsed into a
structured key that re-serializes to exactly the original string, and a
malformed string (no colon) is a typed error. -/

/-- Modelled from the spec: the structured `library:name` key. -/
structure LibraryId where
  library : List Char
  name : List Char
  deriving DecidableEq, Repr

/-- Split a character list at its first colon. -/
def splitAtColon : List Char → Option (List Char × List Char)
  | [] => none
  | c :: cs =>
    if c = ':' then some ([], cs)
    else
      match splitAtColon cs with
      | some (l, r) => some (c :: l, r)
      | none => none

/-- Modelled from the spec: parse `library:name`, splitting at the first
colon; a string without a colon is a typed `LibraryIdMalformed` error. -/
def LibraryId.parse (s : String) : Except Err LibraryId :=
  match splitAtColon s.toList with
  | some (l, r) => .ok ⟨l, r⟩
  | none => .error (.libraryIdMalformed s)

/-- Modelled from the spec: a `LibraryId` re-serializes to exactly the
original `library:name` string. -/
def LibraryId.toStr (id : LibraryId) : String :=
  ⟨id.library ++ ':' :: id.name⟩

/-- Modelled from the spec: the id serializes as a quoted string token. -/
def LibraryId.toSexpr (id : LibraryId) : Sexpr := .str id.toStr

/-! ## Leaf entity models

The owning leaf types live in the missing `common/symbol.rs`; their field
sets are fixed by the `From<…Fast>` conversions of
`symbol_library_fast.rs`, and their grammar is modelled from the spec. -/

/-- Modelled from the spec: `Position` — `(at x y [angle])`, the angle
stored as an `i16`. -/
structure Position where
  x : ℚ
  y : ℚ
  angle : Option ℤ
  deriving DecidableEq, Repr

/-- Modelled from the spec: the position node re-emits its original
shape, including the optional angle. -/
def Position.toSexpr (p : Position) : Sexpr :=
  .list ([.symbol "at", .num p.x, .num p.y] ++ (p.angle.map Sexpr.intNum).toList)

/-- Modelled from the spec: `TextEffects` belongs to the out-of-scope leaf
enumeration; it is represented by the verbatim children of the `effects`
node when one was present. -/
abbrev TextEffects := Option (List Sexpr)

/-- Modelled from the spec: `TextEffects::from_size` — a default effects
value; its concrete rendering is out-of-scope leaf content, represented
here as the absent value. -/
def TextEffects.fromSize (_sx _sy : ℚ) : TextEffects := none

/-- Modelled from the spec: `UnitId` is parsed from the sub-unit id string
and re-serializes to it; its internal structure is out of scope, so it is
kept as the raw string. -/
abbrev UnitId := String

/-- Modelled from the spec: `UnitId` parsing keeps the raw string. -/
def UnitId.parse (s : String) : Except Err UnitId := .ok s

/-- `SymbolProperty` (owning): field set fixed by
`From<SymbolPropertyFast>`. -/
structure SymbolProperty where
  key : String
  value : String
  position : Position
  showName : Bool
  doNotAutoplace : Bool
  effects : TextEffects
  legacyId : Option ℤ
  deriving DecidableEq, Repr

/-- `PinNames` (owning): field set fixed by `From<PinNamesFast>`; the
`hideLegacyFormat` flag records the bare-symbol spelling. -/
structure PinNames where
  offset : Option ℚ
  hide : Bool
  hideLegacyFormat : Bool
  deriving DecidableEq, Repr

/-- `LibSymbolSubUnit` (owning): field set fixed by
`From<LibSymbolSubUnitFast>`; graphic items and pins are out-of-scope leaf
content kept as verbatim token trees. -/
structure LibSymbolSubUnit where
  id : UnitId
  unitName : Option String
  graphicItems : List Sexpr
  pins : List Sexpr
  deriving DecidableEq, Repr

/-- `LibSymbol` (owning): field set fixed by `From<LibSymbolFast>`. -/
structure LibSymbol where
  id : LibraryId
  power : Bool
  hidePinNumbers : Bool
  pinNames : Option PinNames
  excludeFromSim : Option Bool
  inBom : Bool
  onBoard : Bool
  properties : List SymbolProperty
  graphicItems : List Sexpr
  pins : List Sexpr
  units : List LibSymbolSubUnit
  embeddedFonts : Option Bool
  deriving DecidableEq, Repr

/-- `DerivedLibSymbol` (`symbol_library.rs`): id, `extends` back-reference
by name, property overrides. -/
structure DerivedLibSymbol where
  id : LibraryId
  extends_ : String
  properties : List SymbolProperty
  deriving DecidableEq, Repr

/-- `SymbolDefinition` (`symbol_library.rs`): root or derived symbol. -/
inductive SymbolDefinition where
  | rootSymbol : LibSymbol → SymbolDefinition
  | derivedSymbol : DerivedLibSymbol → SymbolDefinition
  deriving DecidableEq, Repr

/-- `SymbolLibraryFile` (`symbol_library.rs`). -/
structure SymbolLibraryFile where
  version : ℕ
  generator : String
  generatorIsString : Bool
  generatorVersion : Option String
  symbols : List SymbolDefinition
  deriving DecidableEq, Repr

/-! ## Owning leaf parsers and serializers

Modelled from the spec: the owning parse/serialize impls of the leaf
types live in the missing `common/symbol.rs`.  Their grammar follows the
spec's schema and legacy spellings (and coincides with the fast variants
of `symbol_library_fast.rs` where those are complete); out-of-scope leaf
content (effects bodies, graphic items, pins) is kept verbatim. -/

/-- Modelled from the spec: `SymbolProperty::from_sexpr` — `(property
"key" "value" [(id N)] (at x y [angle]) [(show_name)]
[(do_not_autoplace)] [effects])`, with the legacy `(id N)` node retained
but not interpreted. -/
def SymbolProperty.fromSexpr (c : Cursor) : Except Err SymbolProperty := do
  let c ← expectSymbolMatching "property" c
  let (key, c) ← expectString c
  let (value, c) ← expectString c
  let (legacyIdQ, c) := maybeNumberWithName "id" c
  let (atl, c) ← expectListWithName "at" c
  let (x, atl) ← expectNumber atl
  let (y, atl) ← expectNumber atl
  let (angle, atl) := maybeNumber atl
  let _ ← expectEnd atl
  let (showName, c) := maybeEmptyListWithName "show_name" c
  let (dna, c) := maybeEmptyListWithName "do_not_autoplace" c
  let (effects, c) := maybeListWithName "effects" c
  let _ ← expectEnd c
  .ok ⟨key, value, ⟨x, y, angle.map ratToI16⟩, showName, dna, effects,
    legacyIdQ.map ratToI32⟩

/-- The presence test for property nodes: first child is the symbol
`property`. -/
def SymbolProperty.isPresent (l : Cursor) : Bool :=
  firstSymbol l == some "property"

/-- Modelled from the spec: the children of the serialized property node —
schema order, each field re-emitting its original spelling, absent fields
contributing no node. -/
def SymbolProperty.toChildren (p : SymbolProperty) : List Sexpr :=
  .symbol "property" :: List.filterMap id
    [some (.str p.key),
     some (.str p.value),
     p.legacyId.map (Sexpr.intNumberWithName "id"),
     some p.position.toSexpr,
     if p.showName then some (.list [.symbol "show_name"]) else none,
     if p.doNotAutoplace then some (.list [.symbol "do_not_autoplace"]) else none,
     p.effects.map fun body => .list (.symbol "effects" :: body)]

/-- Modelled from the spec: `SymbolProperty::to_sexpr`. -/
def SymbolProperty.toSexpr (p : SymbolProperty) : Sexpr := .list p.toChildren

/-- Modelled from the spec: `PinNames::from_sexpr` — `(pin_names
[(offset n)] [hide | (hide yes|no)])`, with the bare-symbol spelling
recorded in the provenance flag (same grammar as the fast variant in the
sources). -/
def PinNames.fromSexpr (c : Cursor) : Except Err PinNames := do
  let c ← expectSymbolMatching "pin_names" c
  let (offset, c) := maybeNumberWithName "offset" c
  let (bare, c) := maybeSymbolMatching "hide" c
  if bare then do
    let _ ← expectEnd c
    .ok ⟨offset, true, true⟩
  else do
    let (hv, c) ← maybeBoolWithName "hide" c
    let _ ← expectEnd c
    match hv with
    | some b => .ok ⟨offset, b, false⟩
    | none => .ok ⟨offset, false, false⟩

/-- The presence test for pin-names nodes. -/
def PinNames.isPresent (l : Cursor) : Bool :=
  firstSymbol l == some "pin_names"

/-- Modelled from the spec: the children of the serialized pin-names node
— re-emit the recorded spelling (same branching as the fast variant in
the sources). -/
def PinNames.toChildren (p : PinNames) : List Sexpr :=
  .symbol "pin_names" :: List.filterMap id
    [p.offset.map fun o => Sexpr.numberWithName "offset" o,
     if p.hide && p.hideLegacyFormat then some (.symbol "hide")
     else if p.hide then some (Sexpr.boolWithName "hide" true)
     else none]

/-- Modelled from the spec: `PinNames::to_sexpr`. -/
def PinNames.toSexpr (p : PinNames) : Sexpr := .list p.toChildren

/-- Modelled from the spec: `LibSymbolSubUnit::from_sexpr` — `(symbol
"id" [(unit_name "x")] …)`, the graphic items and pins being out-of-scope
leaf content kept verbatim (here all trailing nodes are kept in
`graphicItems` and the `pins` list stays empty). -/
def LibSymbolSubUnit.fromSexpr (c : Cursor) : Except Err LibSymbolSubUnit := do
  let c ← expectSymbolMatching "symbol" c
  let (idStr, c) ← expectString c
  let id ← UnitId.parse idStr
  let (unitName, c) := maybeStringWithName "unit_name" c
  .ok ⟨id, unitName, c, []⟩

/-- The presence test for sub-unit nodes. -/
def LibSymbolSubUnit.isPresent (l : Cursor) : Bool :=
  firstSymbol l == some "symbol"

/-- Modelled from the spec: the children of the serialized sub-unit
node. -/
def LibSymbolSubUnit.toChildren (u : LibSymbolSubUnit) : List Sexpr :=
  [.symbol "symbol", .str u.id] ++
    (u.unitName.map fun s => Sexpr.stringWithName "unit_name" s).toList ++
    u.graphicItems ++ u.pins

/-- Modelled from the spec: `LibSymbolSubUnit::to_sexpr`. -/
def LibSymbolSubUnit.toSexpr (u : LibSymbolSubUnit) : Sexpr := .list u.toChildren

/-! ## Owning symbol-library parser and serializer (`symbol_library.rs`) -/

/-- The `pin_numbers` block shared by both parsers: when a
`(pin_numbers …)` list was consumed, require its body to be exactly the
symbol `hide`. -/
def parsePinNumbers : Option Cursor → Except Err Bool
  | some l => do
    let l ← expectSymbolMatching "hide" l
    let _ ← expectEnd l
    pure true
  | none => pure false

/-- The derived branch of `SymbolDefinition::from_sexpr`: `extends`
back-reference, property overrides, end of list. -/
def parseDerivedTail (id : LibraryId) (c : Cursor) : Except Err DerivedLibSymbol := do
  let (ext, c) ← expectStringWithName "extends" c
  let (props, c) ← expectManyGeneric SymbolProperty.fromSexpr SymbolProperty.isPresent c
  let _ ← expectEnd c
  .ok ⟨id, ext, props⟩

/-- The root branch of `SymbolDefinition::from_sexpr`.  The root literal
of the source sets only the fields it parses; the remaining fields of the
shared `LibSymbol` type (`excludeFromSim`, `graphicItems`, `pins`,
`embeddedFonts`) stay at their absent values. -/
def parseRootTail (id : LibraryId) (c : Cursor) : Except Err LibSymbol := do
  let (power, c) := maybeEmptyListWithName "power" c
  let (pnl, c) := maybeListWithName "pin_numbers" c
  let hidePinNumbers ← parsePinNumbers pnl
  let (pinNames, c) ← maybeGeneric PinNames.fromSexpr PinNames.isPresent c
  let (inBom, c) ← expectBoolWithName "in_bom" c
  let (onBoard, c) ← expectBoolWithName "on_board" c
  let (props, c) ← expectManyGeneric SymbolProperty.fromSexpr SymbolProperty.isPresent c
  let (units, c) ← expectManyGeneric LibSymbolSubUnit.fromSexpr LibSymbolSubUnit.isPresent c
  let _ ← expectEnd c
  .ok ⟨id, power, hidePinNumbers, pinNames, none, inBom, onBoard, props, [], [], units, none⟩

/-- `SymbolDefinition::from_sexpr`: consume `symbol` and the id string,
peek whether an `(extends …)` list follows, and parse the derived or the
root grammar accordingly. -/
def SymbolDefinition.fromSexpr (c : Cursor) : Except Err SymbolDefinition := do
  let c ← expectSymbolMatching "symbol" c
  let (idStr, c) ← expectString c
  let id ← LibraryId.parse idStr
  let isDerived : Bool :=
    match c with
    | .list l :: _ => firstSymbol l == some "extends"
    | _ => false
  if isDerived then (parseDerivedTail id c).map .derivedSymbol
  else (parseRootTail id c).map .rootSymbol

/-- The presence test of `simple_maybe_from_sexpr!(SymbolDefinition,
symbol)`. -/
def SymbolDefinition.isPresent (l : Cursor) : Bool :=
  firstSymbol l == some "symbol"

/-- Modelled from the spec: `LibSymbol::to_sexpr` — schema order as in the
fast variant of the sources: id, `(power)`, `(pin_numbers hide)`,
pin names, `exclude_from_sim`, `in_bom`, `on_board`, properties, graphic
items, pins, units, `embedded_fonts`; absent fields contribute no node. -/
def LibSymbol.toChildren (s : LibSymbol) : List Sexpr :=
  .symbol "symbol" :: List.filterMap (fun o => o)
    ([some s.id.toSexpr,
      if s.power then some (.list [.symbol "power"]) else none,
      if s.hidePinNumbers then some (Sexpr.symbolWithName "pin_numbers" "hide") else none,
      s.pinNames.map PinNames.toSexpr,
      s.excludeFromSim.map fun b => Sexpr.boolWithName "exclude_from_sim" b,
      some (Sexpr.boolWithName "in_bom" s.inBom),
      some (Sexpr.boolWithName "on_board" s.onBoard)] ++
     s.properties.map (fun p => some p.toSexpr) ++
     s.graphicItems.map some ++
     s.pins.map some ++
     s.units.map (fun u => some u.toSexpr) ++
     [s.embeddedFonts.map fun b => Sexpr.boolWithName "embedded_fonts" b])

/-- Modelled from the spec: `LibSymbol::to_sexpr`. -/
def LibSymbol.toSexpr (s : LibSymbol) : Sexpr := .list s.toChildren

/-- `DerivedLibSymbol::to_sexpr` (`symbol_library.rs`): id, the `extends`
node, then the property overrides. -/
def DerivedLibSymbol.toChildren (d : DerivedLibSymbol) : List Sexpr :=
  .symbol "symbol" :: List.filterMap (fun o => o)
    ([some d.id.toSexpr,
      some (Sexpr.stringWithName "extends" d.extends_)] ++
     d.properties.map (fun p => some p.toSexpr))

/-- `DerivedLibSymbol::to_sexpr` (`symbol_library.rs`). -/
def DerivedLibSymbol.toSexpr (d : DerivedLibSymbol) : Sexpr := .list d.toChildren

/-- `SymbolDefinition::to_sexpr` (`symbol_library.rs`). -/
def SymbolDefinition.toSexpr : SymbolDefinition → Sexpr
  | .rootSymbol s => s.toSexpr
  | .derivedSymbol d => d.toSexpr

/-- The straight-line continuation of `SymbolLibraryFile::from_sexpr`
after the generator block: optional `generator_version`, the symbol
definitions, end of list. -/
def SymbolLibraryFile.finish (version : ℕ) (generator : String) (isStr : Bool)
    (c : Cursor) : Except Err SymbolLibraryFile := do
  let gvp := maybeStringWithName "generator_version" c
  let (syms, c) ← expectManyGeneric SymbolDefinition.fromSexpr SymbolDefinition.isPresent gvp.2
  let _ ← expectEnd c
  .ok ⟨version, generator, isStr, gvp.1, syms⟩

/-- `SymbolLibraryFile::from_sexpr` (`symbol_library.rs`): keyword,
version (cast `as u32`), the generator list accepting both the legacy
bare-symbol and the current quoted-string spelling (recording which in
`generatorIsString`), then `SymbolLibraryFile.finish`. -/
def SymbolLibraryFile.fromSexpr (c : Cursor) : Except Err SymbolLibraryFile := do
  let c ← expectSymbolMatching "kicad_symbol_lib" c
  let (v, c) ← expectNumberWithName "version" c
  let (g, c) ← expectListWithName "generator" c
  match g with
  | [] => .error .unexpectedEndOfList
  | t :: grest =>
    match t with
    | .str s => do
      let _ ← expectEnd grest
      SymbolLibraryFile.finish (ratToU32 v) s true c
    | .symbol s => do
      let _ ← expectEnd grest
      SymbolLibraryFile.finish (ratToU32 v) s false c
    | _ => .error (.unexpectedSexprType .string)

/-- Parsing a whole document: the top-level token must be a list (as in
the callers of `SymbolLibraryFile::from_sexpr`). -/
def parseLib : Sexpr → Except Err SymbolLibraryFile
  | .list l => SymbolLibraryFile.fromSexpr l
  | _ => .error (.unexpectedSexprType .list)

/-- `SymbolLibraryFile::to_sexpr` (`symbol_library.rs`): version, the
generator re-emitting its recorded spelling, optional generator version,
then the symbols. -/
def SymbolLibraryFile.toChildren (m : SymbolLibraryFile) : List Sexpr :=
  .symbol "kicad_symbol_lib" :: List.filterMap id
    ([some (Sexpr.numberWithName "version" (m.version : ℚ)),
      some (if m.generatorIsString then Sexpr.stringWithName "generator" m.generator
            else Sexpr.symbolWithName "generator" m.generator),
      m.generatorVersion.map fun v => Sexpr.stringWithName "generator_version" v] ++
     m.symbols.map (fun s => some s.toSexpr))

/-- `SymbolLibraryFile::to_sexpr` (`symbol_library.rs`). -/
def SymbolLibraryFile.toSexpr (m : SymbolLibraryFile) : Sexpr := .list m.toChildren

/-! ## Fast (zero-copy) models and parsers (`symbol_library_fast.rs`) -/

/-- `SymbolPropertyFast`: property with interned key. -/
structure SymbolPropertyFast where
  key : InternedString
  value : String
  position : Position
  showName : Bool
  doNotAutoplace : Bool
  effects : TextEffects
  legacyId : Option ℤ
  deriving DecidableEq, Repr

/-- `PinNamesFast`. -/
structure PinNamesFast where
  offset : Option ℚ
  hide : Bool
  hideLegacyFormat : Bool
  deriving DecidableEq, Repr

/-- `LibSymbolSubUnitFast`: graphic items and pins are left empty by the
fast parser (`// For now, skip parsing graphic items and pins`). -/
structure LibSymbolSubUnitFast where
  id : UnitId
  unitName : Option String
  graphicItems : List Sexpr
  pins : List Sexpr
  deriving DecidableEq, Repr

/-- `LibSymbolFast`. -/
structure LibSymbolFast where
  id : LibraryId
  power : Bool
  hidePinNumbers : Bool
  pinNames : Option PinNamesFast
  excludeFromSim : Option Bool
  inBom : Bool
  onBoard : Bool
  properties : List SymbolPropertyFast
  graphicItems : List Sexpr
  pins : List Sexpr
  units : List LibSymbolSubUnitFast
  embeddedFonts : Option Bool
  deriving DecidableEq, Repr

/-- `DerivedLibSymbolFast`. -/
structure DerivedLibSymbolFast where
  id : LibraryId
  extends_ : String
  properties : List SymbolPropertyFast
  deriving DecidableEq, Repr

/-- `SymbolDefinitionFast`. -/
inductive SymbolDefinitionFast where
  | rootSymbol : LibSymbolFast → SymbolDefinitionFast
  | derivedSymbol : DerivedLibSymbolFast → SymbolDefinitionFast
  deriving DecidableEq, Repr

/-- `SymbolPropertyFast::from_sexpr_ref`: like the owning property parser
but interning the key, casting the legacy id `as i32` and the angle
`as i16`, and skipping the detailed effects content (`TextEffects::
from_size(1.0, 1.0)` regardless of the node's body). -/
def SymbolPropertyFast.fromSexprRef (c : Cursor) : Except Err SymbolPropertyFast := do
  let c ← expectSymbolMatching "property" c
  let (k, c) ← expectString c
  let key := internPropertyKey k
  let (value, c) ← expectString c
  let (legacyIdQ, c) := maybeNumberWithName "id" c
  let (atl, c) ← expectListWithName "at" c
  let (x, atl) ← expectNumber atl
  let (y, atl) ← expectNumber atl
  let (angle, atl) := maybeNumber atl
  let _ ← expectEnd atl
  let (showName, c) := maybeEmptyListWithName "show_name" c
  let (dna, c) := maybeEmptyListWithName "do_not_autoplace" c
  let (_, c) := maybeListWithName "effects" c
  let effects := TextEffects.fromSize 1 1
  let _ ← expectEnd c
  .ok ⟨key, value, ⟨x, y, angle.map ratToI16⟩, showName, dna, effects,
    legacyIdQ.map ratToI32⟩

/-- `SymbolPropertyFast::is_present_ref`. -/
def SymbolPropertyFast.isPresentRef (l : Cursor) : Bool :=
  firstSymbol l == some "property"

/-- `PinNamesFast::from_sexpr_ref` (`symbol_library_fast.rs` lines
369–388): optional `(offset n)`, then legacy bare `hide`, else optional
`(hide yes|no)`, recording the spelling in `hideLegacyFormat`. -/
def PinNamesFast.fromSexprRef (c : Cursor) : Except Err PinNamesFast := do
  let c ← expectSymbolMatching "pin_names" c
  let (offset, c) := maybeNumberWithName "offset" c
  let (bare, c) := maybeSymbolMatching "hide" c
  if bare then do
    let _ ← expectEnd c
    .ok ⟨offset, true, true⟩
  else do
    let (hv, c) ← maybeBoolWithName "hide" c
    let _ ← expectEnd c
    match hv with
    | some b => .ok ⟨offset, b, false⟩
    | none => .ok ⟨offset, false, false⟩

/-- `PinNamesFast::is_present_ref`. -/
def PinNamesFast.isPresentRef (l : Cursor) : Bool :=
  firstSymbol l == some "pin_names"

/-- `PinNamesFast::to_sexpr` (`symbol_library_fast.rs` lines 396–413):
legacy spelling re-emits the bare `hide` symbol, the current spelling
re-emits `(hide yes)`, and a hidden flag of `false` contributes no
node. -/
def PinNamesFast.toSexpr (p : PinNamesFast) : Sexpr :=
  Sexpr.listWithName "pin_names"
    [p.offset.map fun o => Sexpr.numberWithName "offset" o,
     if p.hide && p.hideLegacyFormat then some (.symbol "hide")
     else if p.hide then some (Sexpr.boolWithName "hide" true)
     else none]

/-- `LibSymbolSubUnitFast::from_sexpr_ref`: id and optional unit name;
all remaining content is skipped and discarded. -/
def LibSymbolSubUnitFast.fromSexprRef (c : Cursor) : Except Err LibSymbolSubUnitFast := do
  let c ← expectSymbolMatching "symbol" c
  let (idStr, c) ← expectString c
  let id ← UnitId.parse idStr
  let (unitName, _) := maybeStringWithName "unit_name" c
  .ok ⟨id, unitName, [], []⟩

/-- `LibSymbolSubUnitFast::is_present_ref`. -/
def LibSymbolSubUnitFast.isPresentRef (l : Cursor) : Bool :=
  firstSymbol l == some "symbol"

/-- The derived branch of `SymbolDefinitionFast::from_sexpr_ref`. -/
def parseDerivedTailFast (id : LibraryId) (c : Cursor) : Except Err DerivedLibSymbolFast := do
  let (ext, c) ← expectStringWithName "extends" c
  let (props, c) ←
    expectManyGeneric SymbolPropertyFast.fromSexprRef SymbolPropertyFast.isPresentRef c
  let _ ← expectEnd c
  .ok ⟨id, ext, props⟩

/-- The root branch of `SymbolDefinitionFast::from_sexpr_ref`: also
handles `exclude_from_sim` and `embedded_fonts`, and skips any remaining
items instead of requiring the end of the list. -/
def parseRootTailFast (id : LibraryId) (c : Cursor) : Except Err LibSymbolFast := do
  let (power, c) := maybeEmptyListWithName "power" c
  let (pnl, c) := maybeListWithName "pin_numbers" c
  let hidePinNumbers ← parsePinNumbers pnl
  let (pinNames, c) ← maybeGeneric PinNamesFast.fromSexprRef PinNamesFast.isPresentRef c
  let (exclSim, c) ← maybeBoolWithName "exclude_from_sim" c
  let (inBom, c) ← expectBoolWithName "in_bom" c
  let (onBoard, c) ← expectBoolWithName "on_board" c
  let (props, c) ←
    expectManyGeneric SymbolPropertyFast.fromSexprRef SymbolPropertyFast.isPresentRef c
  let (units, c) ←
    expectManyGeneric LibSymbolSubUnitFast.fromSexprRef LibSymbolSubUnitFast.isPresentRef c
  let (embFonts, _) ← maybeBoolWithName "embedded_fonts" c
  -- remaining items are skipped (`while parser.peek_next().is_some()`)
  .ok ⟨id, power, hidePinNumbers, pinNames, exclSim, inBom, onBoard, props, [], [], units,
    embFonts⟩

/-- `SymbolDefinitionFast::from_sexpr_ref` (`symbol_library_fast.rs`
lines 117–185): same structural-peek disambiguation as the owning
parser, then the derived or root branch. -/
def SymbolDefinitionFast.fromSexprRef (c : Cursor) : Except Err SymbolDefinitionFast := do
  let c ← expectSymbolMatching "symbol" c
  let (idStr, c) ← expectString c
  let id ← LibraryId.parse idStr
  let isDerived : Bool :=
    match c with
    | .list l :: _ => firstSymbol l == some "extends"
    | _ => false
  if isDerived then (parseDerivedTailFast id c).map .derivedSymbol
  else (parseRootTailFast id c).map .rootSymbol

/-- `SymbolDefinitionFast::is_present_ref`. -/
def SymbolDefinitionFast.isPresentRef (l : Cursor) : Bool :=
  firstSymbol l == some "symbol"

/-! ## `From<…Fast>` conversions (`symbol_library_fast.rs` lines 503–578) -/

/-- `From<SymbolPropertyFast> for SymbolProperty`: `key.to_string()`
recovers the content of the interned key. -/
def SymbolPropertyFast.toOwning (p : SymbolPropertyFast) : SymbolProperty :=
  ⟨p.key.asStr, p.value, p.position, p.showName, p.doNotAutoplace, p.effects, p.legacyId⟩

/-- `From<PinNamesFast> for PinNames`. -/
def PinNamesFast.toOwning (p : PinNamesFast) : PinNames :=
  ⟨p.offset, p.hide, p.hideLegacyFormat⟩

/-- `From<LibSymbolSubUnitFast> for LibSymbolSubUnit`. -/
def LibSymbolSubUnitFast.toOwning (u : LibSymbolSubUnitFast) : LibSymbolSubUnit :=
  ⟨u.id, u.unitName, u.graphicItems, u.pins⟩

/-- `From<LibSymbolFast> for LibSymbol`. -/
def LibSymbolFast.toOwning (s : LibSymbolFast) : LibSymbol :=
  ⟨s.id, s.power, s.hidePinNumbers, s.pinNames.map PinNamesFast.toOwning,
    s.excludeFromSim, s.inBom, s.onBoard, s.properties.map SymbolPropertyFast.toOwning,
    s.graphicItems, s.pins, s.units.map LibSymbolSubUnitFast.toOwning, s.embeddedFonts⟩

/-- `From<DerivedLibSymbolFast> for DerivedLibSymbol`. -/
def DerivedLibSymbolFast.toOwning (d : DerivedLibSymbolFast) : DerivedLibSymbol :=
  ⟨d.id, d.extends_, d.properties.map SymbolPropertyFast.toOwning⟩

/-- `From<SymbolDefinitionFast> for SymbolDefinition`. -/
def SymbolDefinitionFast.toOwning : SymbolDefinitionFast → SymbolDefinition
  | .rootSymbol s => .rootSymbol s.toOwning
  | .derivedSymbol d => .derivedSymbol d.toOwning

/-! ## Claim theorems -/

/-- **C7**.  For every keyword and cursor state, `expect_bool_with_name`
consumes a list named by the keyword and returns `true` for the symbol
values `yes` and `true`, `false` for `no` and `false`, and for any other
symbol value fails with `InvalidEnumValue` carrying that value and the
enum name `"bool"`. -/
theorem c7_expect_bool_vocabulary (name v : String) (rest outer : Cursor) :
    expectBoolWithName name (.list (.symbol name :: .symbol v :: rest) :: outer) =
      if v = "yes" ∨ v = "true" then .ok (true, outer)
      else if v = "no" ∨ v = "false" then .ok (false, outer)
      else .error (.invalidEnumValue v "bool") := by
  by_cases h1 : v = "yes" <;> by_cases h2 : v = "no" <;>
    by_cases h3 : v = "true" <;> by_cases h4 : v = "false" <;>
    simp_all [expectBoolWithName, expectListWithName, expectList, expectNext,
      expectSymbol, expectSymbolMatching]

/-- **C10**.  `expect_bool_with_name` does not require the named list to
end after the boolean symbol: trailing tokens inside the list are ignored
rather than causing an `ExpectedEndOfList` error. -/
theorem c10_expect_bool_ignores_trailing (name : String) (extra outer : Cursor) :
    expectBoolWithName name (.list (.symbol name :: .symbol "yes" :: extra) :: outer) =
      .ok (true, outer) := by
  simp [expectBoolWithName, expectListWithName, expectList, expectNext,
    expectSymbol, expectSymbolMatching]

/-- **C8**.  `intern_property_key` never fails and returns a value whose
string content equals the input key (for listed and unlisted keys alike),
and calling it twice with the same key returns results equal under the
derived content equality; interning therefore has no observable effect on
parsed values or equality. -/
theorem c8_intern_content_and_idempotence (k : String) :
    (internPropertyKey k).asStr = k ∧
    (internPropertyKey k).beqContent (internPropertyKey k) = true := by
  unfold internPropertyKey
  split <;> simp [InternedString.asStr, InternedString.beqContent]

/-- The leading number of a cursor, when its first token is a numeric
literal. -/
def headNumber : Cursor → Option ℚ
  | .num n :: _ => some n
  | _ => none

/-- The leading string of a cursor, when its first token is a quoted
string. -/
def headString : Cursor → Option String
  | .str s :: _ => some s
  | _ => none

/-- **C9 (counterexample)**.  The claim says a named list whose body is
not a single number is consumed and reported absent; but
`maybe_number_with_name "id"` on `(id 1 2)` — whose body is two numbers,
not a single number — returns the leading number, not `None`. -/
theorem c9_counterexample :
    maybeNumberWithName "id" [.list [.symbol "id", .num 1, .num 2]] = (some 1, []) ∧
    maybeNumberWithName "id" [.list [.symbol "id", .num 1, .num 2]] ≠ (none, []) := by
  decide

/-- **C9 (amended)**.  If the next token is a list whose first child is
the keyword symbol, `maybe_number_with_name` (resp.
`maybe_string_with_name`) consumes that list and returns its leading body
token when that token is a number (resp. string) — ignoring any extra
body tokens — and otherwise returns absent instead of reporting a parse
error: the malformed node is silently swallowed, never surfaced. -/
theorem c9_amended_maybe_swallows (name : String) (args outer : Cursor) :
    maybeNumberWithName name (.list (.symbol name :: args) :: outer) =
      (headNumber args, outer) ∧
    maybeStringWithName name (.list (.symbol name :: args) :: outer) =
      (headString args, outer) := by
  constructor <;>
  · cases args with
    | nil =>
      simp [maybeNumberWithName, maybeStringWithName, maybeListWithName, firstSymbol,
        expectNumber, expectString, expectNext, headNumber, headString]
    | cons t r =>
      cases t <;>
        simp [maybeNumberWithName, maybeStringWithName, maybeListWithName, firstSymbol,
          expectNumber, expectString, expectNext, headNumber, headString]

/-- The children of a `pin_names` node with a given offset and hide
spelling. -/
def pinNamesChildren (off : Option ℚ) (hideSpelling : List Sexpr) : Cursor :=
  .symbol "pin_names" ::
    ((off.map fun o => Sexpr.numberWithName "offset" o).toList ++ hideSpelling)

/-- **C5 (counterexample)**.  `(pin_names (hide no))` parses successfully,
but serializing the parsed value emits `(pin_names)` — the `(hide no)`
spelling is not re-emitted, contradicting the claim that every original
hide spelling (including `(hide no)`) is re-emitted exactly. -/
theorem c5_counterexample :
    PinNamesFast.fromSexprRef [.symbol "pin_names", .list [.symbol "hide", .symbol "no"]] =
      .ok ⟨none, false, false⟩ ∧
    PinNamesFast.toSexpr ⟨none, false, false⟩ = .list [.symbol "pin_names"] ∧
    PinNamesFast.toSexpr ⟨none, false, false⟩ ≠
      .list [.symbol "pin_names", .list [.symbol "hide", .symbol "no"]] := by
  decide

/-- **C5 (amended)**.  Both the legacy bare-symbol `hide` and the current
`(hide yes|no)` spellings parse successfully (with any optional offset),
and serializing re-emits the original spelling for the bare `hide` and
`(hide yes)` forms; the `(hide no)` form, however, serializes to the same
omitted-node form as an absent hide field. -/
theorem c5_amended_pin_names_spellings (off : Option ℚ) :
    PinNamesFast.fromSexprRef (pinNamesChildren off [.symbol "hide"]) =
      .ok ⟨off, true, true⟩ ∧
    PinNamesFast.toSexpr ⟨off, true, true⟩ =
      .list (pinNamesChildren off [.symbol "hide"]) ∧
    PinNamesFast.fromSexprRef
        (pinNamesChildren off [.list [.symbol "hide", .symbol "yes"]]) =
      .ok ⟨off, true, false⟩ ∧
    PinNamesFast.toSexpr ⟨off, true, false⟩ =
      .list (pinNamesChildren off [.list [.symbol "hide", .symbol "yes"]]) ∧
    PinNamesFast.fromSexprRef
        (pinNamesChildren off [.list [.symbol "hide", .symbol "no"]]) =
      .ok ⟨off, false, false⟩ ∧
    PinNamesFast.toSexpr ⟨off, false, false⟩ = .list (pinNamesChildren off []) := by
  cases off <;>
    refine ⟨?_, ?_, ?_, ?_, ?_, ?_⟩ <;>
    simp [PinNamesFast.fromSexprRef, PinNamesFast.toSexpr, pinNamesChildren,
      expectSymbolMatching, expectSymbol, expectNext, maybeNumberWithName,
      maybeListWithName, firstSymbol, expectNumber, maybeSymbolMatching,
      maybeBoolWithName, expectEnd, Sexpr.listWithName, Sexpr.numberWithName,
      Sexpr.boolWithName]

/-- Inversion of a successful `Except` bind. -/
theorem bind_eq_ok_iff {ε α β : Type} {x : Except ε α} {f : α → Except ε β} {b : β} :
    (x >>= f = Except.ok b) ↔ ∃ a, x = .ok a ∧ f a = .ok b := by
  cases x <;> simp

/-- **C6**.  For every parse capability and presence test and every cursor
state: if the next node looks present but its full parse fails,
`expect_many` returns that parse error rather than ending the sequence
(first conjunct); and whenever `expect_many` succeeds, the cursor it
stops at is one where `maybe` reports the next node absent — termination
is driven exactly by presence-test failure (second conjunct). -/
theorem c6_expect_many_termination {α : Type} (parse : Cursor → Except Err α)
    (present : Cursor → Bool) (c : Cursor) :
    (∀ l e rest, c = .list l :: rest → present l = true → parse l = .error e →
      expectManyGeneric parse present c = .error e) ∧
    (∀ items fin, expectManyGeneric parse present c = .ok (items, fin) →
      maybeGeneric parse present fin = .ok (none, fin)) := by
  constructor
  · intro l e rest hc hp hP
    subst hc
    simp [expectManyGeneric, hp, hP]
  · induction c with
    | nil =>
      intro items fin h
      simp only [expectManyGeneric, Except.ok.injEq, Prod.mk.injEq] at h
      obtain ⟨-, h2⟩ := h
      subst h2
      simp [maybeGeneric]
    | cons t rest ih =>
      intro items fin h
      cases t with
      | list l =>
        by_cases hp : present l = true
        · simp only [expectManyGeneric, hp, if_true] at h
          cases hP : parse l with
          | error e => rw [hP] at h; simp at h
          | ok a =>
            rw [hP] at h
            cases hM : expectManyGeneric parse present rest with
            | error e => rw [hM] at h; simp at h
            | ok p =>
              obtain ⟨as, fin'⟩ := p
              rw [hM] at h
              simp only [Except.ok.injEq, Prod.mk.injEq] at h
              obtain ⟨-, h2⟩ := h
              subst h2
              exact ih as fin' hM
        · simp only [Bool.not_eq_true] at hp
          simp only [expectManyGeneric, hp, Bool.false_eq_true, if_false,
            Except.ok.injEq, Prod.mk.injEq] at h
          obtain ⟨-, h2⟩ := h
          subst h2
          simp [maybeGeneric, hp]
      | symbol s =>
        simp only [expectManyGeneric, Except.ok.injEq, Prod.mk.injEq] at h
        obtain ⟨-, h2⟩ := h
        subst h2
        simp [maybeGeneric]
      | str s =>
        simp only [expectManyGeneric, Except.ok.injEq, Prod.mk.injEq] at h
        obtain ⟨-, h2⟩ := h
        subst h2
        simp [maybeGeneric]
      | num n =>
        simp only [expectManyGeneric, Except.ok.injEq, Prod.mk.injEq] at h
        obtain ⟨-, h2⟩ := h
        subst h2
        simp [maybeGeneric]

/-- A presence test that accepts every list node (used to witness C6). -/
def alwaysPresent : Cursor → Bool := fun _ => true

/-- A parse capability that always fails (used to witness C6). -/
def failingParse : Cursor → Except Err Unit := fun _ => .error .unexpectedEndOfList

/-- Witness for C6 at concrete capabilities and cursors. -/
theorem c6_expect_many_termination_witness :
    expectManyGeneric failingParse alwaysPresent [.list []] =
      .error .unexpectedEndOfList ∧
    maybeGeneric failingParse alwaysPresent [.num 1] = .ok (none, [.num 1]) :=
  ⟨(c6_expect_many_termination failingParse alwaysPresent [.list []]).1
      [] .unexpectedEndOfList [] rfl rfl rfl,
   (c6_expect_many_termination failingParse alwaysPresent [.num 1]).2
      [] [.num 1] rfl⟩

/-- The structural condition of the disambiguation algorithm: the token
immediately after the `symbol` keyword and the id is a list whose first
child is the symbol `extends`. -/
def extendsFollows : Cursor → Bool
  | _ :: _ :: .list l :: _ => firstSymbol l == some "extends"
  | _ => false

theorem extendsFollows_cons2 (a b : Sexpr) (c : Cursor) :
    extendsFollows (a :: b :: c) =
      match c with
      | .list l :: _ => firstSymbol l == some "extends"
      | _ => false := by
  cases c with
  | nil => rfl
  | cons t r => cases t <;> rfl

/-- A successful root branch never yields a derived symbol. -/
theorem parseRootTail_not_derived (id : LibraryId) (c : Cursor) (r : SymbolDefinition)
    (h : (parseRootTail id c).map SymbolDefinition.rootSymbol = .ok r) :
    ∀ d, r ≠ .derivedSymbol d := by
  cases hP : parseRootTail id c with
  | error e => rw [hP] at h; simp at h
  | ok s =>
    rw [hP] at h
    simp only [ok_map, Except.ok.injEq] at h
    subst h
    intro d hd
    simp at hd

/-- A successful derived branch always yields a derived symbol. -/
theorem parseDerivedTail_derived (id : LibraryId) (c : Cursor) (r : SymbolDefinition)
    (h : (parseDerivedTail id c).map SymbolDefinition.derivedSymbol = .ok r) :
    ∃ d, r = .derivedSymbol d := by
  cases hP : parseDerivedTail id c with
  | error e => rw [hP] at h; simp at h
  | ok d =>
    rw [hP] at h
    simp only [ok_map, Except.ok.injEq] at h
    exact ⟨d, h.symm⟩

/-- **C3**.  For every symbol node that parses successfully, the parser
classifies it as `DerivedSymbol` exactly when an `(extends …)` list
immediately follows the `symbol` keyword and id prefix, and as
`RootSymbol` otherwise — regardless of what (and how many) nodes follow. -/
theorem c3_derived_iff_extends (c : Cursor) (r : SymbolDefinition)
    (h : SymbolDefinition.fromSexpr c = .ok r) :
    (∃ d, r = .derivedSymbol d) ↔ extendsFollows c = true := by
  unfold SymbolDefinition.fromSexpr at h
  cases c with
  | nil => simp [expectSymbolMatching, expectSymbol, expectNext] at h
  | cons t c1 =>
    cases t with
    | symbol s =>
      by_cases hs : s = "symbol"
      · subst hs
        simp only [expectSymbolMatching, expectSymbol, expectNext, ok_bind,
          reduceIte] at h
        cases c1 with
        | nil => simp [expectString, expectNext] at h
        | cons u c2 =>
          cases u with
          | str idStr =>
            simp only [expectString, expectNext, ok_bind] at h
            cases hid : LibraryId.parse idStr with
            | error e => rw [hid] at h; simp at h
            | ok id =>
              rw [hid] at h
              simp only [ok_bind] at h
              rw [extendsFollows_cons2]
              cases c2 with
              | nil =>
                simp only [Bool.false_eq_true, if_false] at h
                simp only [Bool.false_eq_true, iff_false]
                rintro ⟨d, hd⟩
                exact parseRootTail_not_derived id [] r h d hd
              | cons t2 c3 =>
                cases t2 with
                | list l =>
                  by_cases hd : (firstSymbol l == some "extends") = true
                  · simp only [hd, if_true] at h
                    simp only [hd, iff_true]
                    exact parseDerivedTail_derived id (.list l :: c3) r h
                  · simp only [Bool.not_eq_true] at hd
                    simp only [hd, Bool.false_eq_true, if_false] at h
                    simp only [hd, Bool.false_eq_true, iff_false]
                    rintro ⟨d, hde⟩
                    exact parseRootTail_not_derived id (.list l :: c3) r h d hde
                | symbol v =>
                  simp only [Bool.false_eq_true, if_false] at h
                  simp only [Bool.false_eq_true, iff_false]
                  rintro ⟨d, hd⟩
                  exact parseRootTail_not_derived id (.symbol v :: c3) r h d hd
                | str v =>
                  simp only [Bool.false_eq_true, if_false] at h
                  simp only [Bool.false_eq_true, iff_false]
                  rintro ⟨d, hd⟩
                  exact parseRootTail_not_derived id (.str v :: c3) r h d hd
                | num v =>
                  simp only [Bool.false_eq_true, if_false] at h
                  simp only [Bool.false_eq_true, iff_false]
                  rintro ⟨d, hd⟩
                  exact parseRootTail_not_derived id (.num v :: c3) r h d hd
          | symbol v => simp [expectString, expectNext] at h
          | num n => simp [expectString, expectNext] at h
          | list l => simp [expectString, expectNext] at h
      · simp [expectSymbolMatching, expectSymbol, expectNext, hs] at h
    | str v => simp [expectSymbolMatching, expectSymbol, expectNext] at h
    | num n => simp [expectSymbolMatching, expectSymbol, expectNext] at h
    | list l => simp [expectSymbolMatching, expectSymbol, expectNext] at h

/-- Witness for C3: `(symbol "Device:R" (extends "Base"))` parses to a
derived symbol, `(symbol "Device:R" (in_bom yes) (on_board yes))` parses
to a root symbol, and the theorem's characterization applies to both. -/
theorem c3_derived_iff_extends_witness :
    SymbolDefinition.fromSexpr
        [.symbol "symbol", .str "Device:R", .list [.symbol "extends", .str "Base"]] =
      .ok (.derivedSymbol ⟨⟨"Device".toList, "R".toList⟩, "Base", []⟩) ∧
    ((∃ d, (SymbolDefinition.derivedSymbol ⟨⟨"Device".toList, "R".toList⟩, "Base", []⟩) =
        .derivedSymbol d) ↔
      extendsFollows
        [.symbol "symbol", .str "Device:R", .list [.symbol "extends", .str "Base"]] = true) ∧
    SymbolDefinition.fromSexpr
        [.symbol "symbol", .str "Device:R", .list [.symbol "in_bom", .symbol "yes"],
          .list [.symbol "on_board", .symbol "yes"]] =
      .ok (.rootSymbol
        ⟨⟨"Device".toList, "R".toList⟩, false, false, none, none, true, true, [], [], [],
          [], none⟩) ∧
    ((∃ d, (SymbolDefinition.rootSymbol
        ⟨⟨"Device".toList, "R".toList⟩, false, false, none, none, true, true, [], [], [],
          [], none⟩) = .derivedSymbol d) ↔
      extendsFollows
        [.symbol "symbol", .str "Device:R", .list [.symbol "in_bom", .symbol "yes"],
          .list [.symbol "on_board", .symbol "yes"]] = true) :=
  ⟨by decide, c3_derived_iff_extends _ _ (by decide), by decide,
    c3_derived_iff_extends _ _ (by decide)⟩

/-- The children of a `kicad_symbol_lib` node with a given version,
generator node, and remaining content. -/
def libChildren (vn : ℚ) (genNode : Sexpr) (rest : Cursor) : Cursor :=
  .symbol "kicad_symbol_lib" :: .list [.symbol "version", .num vn] :: genNode :: rest

theorem fromSexpr_generator_symbol (vn : ℚ) (g : String) (rest : Cursor) :
    SymbolLibraryFile.fromSexpr
        (libChildren vn (.list [.symbol "generator", .symbol g]) rest) =
      SymbolLibraryFile.finish (ratToU32 vn) g false rest := by
  simp [SymbolLibraryFile.fromSexpr, libChildren, expectSymbolMatching, expectSymbol,
    expectNext, expectNumberWithName, expectListWithName, expectList, expectNumber,
    expectEnd]

theorem fromSexpr_generator_string (vn : ℚ) (g : String) (rest : Cursor) :
    SymbolLibraryFile.fromSexpr
        (libChildren vn (.list [.symbol "generator", .str g]) rest) =
      SymbolLibraryFile.finish (ratToU32 vn) g true rest := by
  simp [SymbolLibraryFile.fromSexpr, libChildren, expectSymbolMatching, expectSymbol,
    expectNext, expectNumberWithName, expectListWithName, expectList, expectNumber,
    expectEnd]

/-- The continuation after the generator block depends on the recorded
spelling flag only through the stored field: flipping the flag flips
exactly that field of the result. -/
theorem finish_flag (v : ℕ) (g : String) (b b' : Bool) (c : Cursor) (m : SymbolLibraryFile)
    (h : SymbolLibraryFile.finish v g b c = .ok m) :
    m.version = v ∧ m.generator = g ∧ m.generatorIsString = b ∧
    SymbolLibraryFile.finish v g b' c =
      .ok ⟨m.version, m.generator, b', m.generatorVersion, m.symbols⟩ := by
  unfold SymbolLibraryFile.finish at h ⊢
  obtain ⟨gv, c1, hm⟩ : ∃ gv c1, maybeStringWithName "generator_version" c = (gv, c1) :=
    ⟨_, _, rfl⟩
  rw [hm] at h ⊢
  simp only at h ⊢
  cases hMany : expectManyGeneric SymbolDefinition.fromSexpr SymbolDefinition.isPresent c1 with
  | error e => rw [hMany] at h; simp at h
  | ok p =>
    obtain ⟨syms, c2⟩ := p
    rw [hMany] at h
    simp only [ok_bind] at h ⊢
    cases hEnd : expectEnd c2 with
    | error e => rw [hEnd] at h; simp at h
    | ok u =>
      rw [hEnd] at h
      simp only [ok_bind, Except.ok.injEq] at h
      subst h
      simp

/-- **C4**.  The two generator spellings `(generator g)` (legacy bare
symbol) and `(generator "g")` (current quoted string) both parse to the
logical generator name `g`; the resulting library models differ only in
the `generator_is_string` provenance flag; and serializing each model
re-emits its own original spelling. -/
theorem c4_generator_legacy_equivalence (vn : ℚ) (g : String) (rest : Cursor)
    (m : SymbolLibraryFile)
    (h : SymbolLibraryFile.fromSexpr
        (libChildren vn (.list [.symbol "generator", .symbol g]) rest) = .ok m) :
    m.generator = g ∧ m.generatorIsString = false ∧
    SymbolLibraryFile.fromSexpr
        (libChildren vn (.list [.symbol "generator", .str g]) rest) =
      .ok ⟨m.version, m.generator, true, m.generatorVersion, m.symbols⟩ ∧
    (∃ tail, SymbolLibraryFile.toSexpr m =
      .list (.symbol "kicad_symbol_lib" ::
        Sexpr.numberWithName "version" (m.version : ℚ) ::
        .list [.symbol "generator", .symbol g] :: tail)) ∧
    (∃ tail,
      SymbolLibraryFile.toSexpr ⟨m.version, m.generator, true, m.generatorVersion, m.symbols⟩ =
      .list (.symbol "kicad_symbol_lib" ::
        Sexpr.numberWithName "version" (m.version : ℚ) ::
        .list [.symbol "generator", .str g] :: tail)) := by
  rw [fromSexpr_generator_symbol] at h
  obtain ⟨hv, hg, hb, hflip⟩ := finish_flag (ratToU32 vn) g false true rest m h
  refine ⟨hg, hb, ?_, ?_, ?_⟩
  · rw [fromSexpr_generator_string, hflip]
  · simp only [SymbolLibraryFile.toSexpr, SymbolLibraryFile.toChildren,
      Sexpr.symbolWithName, Sexpr.numberWithName, hb, hg, Bool.false_eq_true, if_false,
      List.cons_append, List.filterMap_cons, id]
    exact ⟨_, rfl⟩
  · simp only [SymbolLibraryFile.toSexpr, SymbolLibraryFile.toChildren,
      Sexpr.stringWithName, Sexpr.numberWithName, hg, if_true, List.cons_append,
      List.filterMap_cons, id]
    exact ⟨_, rfl⟩

/-- Witness for C4 at the spec's scenario input. -/
theorem c4_generator_legacy_equivalence_witness :
    (⟨20211014, "kicad_symbol_editor", false, none, []⟩ : SymbolLibraryFile).generator =
        "kicad_symbol_editor" ∧
    (⟨20211014, "kicad_symbol_editor", false, none, []⟩ :
        SymbolLibraryFile).generatorIsString = false ∧
    SymbolLibraryFile.fromSexpr
        (libChildren 20211014
          (.list [.symbol "generator", .str "kicad_symbol_editor"]) []) =
      .ok ⟨20211014, "kicad_symbol_editor", true, none, []⟩ ∧
    (∃ tail,
      SymbolLibraryFile.toSexpr ⟨20211014, "kicad_symbol_editor", false, none, []⟩ =
      .list (.symbol "kicad_symbol_lib" ::
        Sexpr.numberWithName "version" ((20211014 : ℕ) : ℚ) ::
        .list [.symbol "generator", .symbol "kicad_symbol_editor"] :: tail)) ∧
    (∃ tail,
      SymbolLibraryFile.toSexpr ⟨20211014, "kicad_symbol_editor", true, none, []⟩ =
      .list (.symbol "kicad_symbol_lib" ::
        Sexpr.numberWithName "version" ((20211014 : ℕ) : ℚ) ::
        .list [.symbol "generator", .str "kicad_symbol_editor"] :: tail)) :=
  c4_generator_legacy_equivalence 20211014 "kicad_symbol_editor" []
    ⟨20211014, "kicad_symbol_editor", false, none, []⟩ (by decide)

/-! ## Round-trip development

The legality predicate for the round-trip property is expressed through
well-ranged models: a token tree is legal when it is the serialization of
a model whose numeric fields fit the integer casts of the parser and
whose out-of-band fields hold the parser's absent values.  Because the
serializer replays the recorded provenance, its image covers every legal
spelling representable in the model. -/

theorem ratTrunc_intCast (i : ℤ) : ratTrunc (i : ℚ) = i := by
  unfold ratTrunc
  by_cases h : (0 : ℚ) ≤ (i : ℚ)
  · rw [if_pos h, Int.floor_intCast]
  · rw [if_neg h, show -((i : ℚ)) = ((-i : ℤ) : ℚ) by push_cast; ring, Int.floor_intCast]
    ring

theorem ratToU32_natCast (n : ℕ) (h : n < 2 ^ 32) : ratToU32 ((n : ℕ) : ℚ) = n := by
  unfold ratToU32 intClamp
  rw [show ((n : ℕ) : ℚ) = ((n : ℤ) : ℚ) by push_cast; ring, ratTrunc_intCast]
  omega

theorem ratToI32_intCast (i : ℤ) (h1 : -(2 ^ 31) ≤ i) (h2 : i ≤ 2 ^ 31 - 1) :
    ratToI32 (i : ℚ) = i := by
  unfold ratToI32 intClamp
  rw [ratTrunc_intCast]
  omega

theorem ratToI16_intCast (i : ℤ) (h1 : -(2 ^ 15) ≤ i) (h2 : i ≤ 2 ^ 15 - 1) :
    ratToI16 (i : ℚ) = i := by
  unfold ratToI16 intClamp
  rw [ratTrunc_intCast]
  omega

/-- An optional integer within saturation-safe bounds. -/
def optIntRange (lo hi : ℤ) : Option ℤ → Bool
  | none => true
  | some i => decide (lo ≤ i) && decide (i ≤ hi)

/-- A library id whose library part contains no colon (so that the split
at the first colon recovers it). -/
def idOk (id : LibraryId) : Bool := decide (':' ∉ id.library)

/-- A property whose legacy id fits `i32` and whose angle fits `i16`. -/
def propOk (p : SymbolProperty) : Bool :=
  optIntRange (-(2 ^ 31)) (2 ^ 31 - 1) p.legacyId &&
  optIntRange (-(2 ^ 15)) (2 ^ 15 - 1) p.position.angle

/-- A pin-names value whose provenance flag is consistent: the legacy
bare-`hide` spelling implies the flag is set. -/
def pnOk (p : PinNames) : Bool := !p.hideLegacyFormat || p.hide

/-- The verbatim trailing content of a sub-unit must not start with a
`unit_name`-shaped node when the unit has no recorded unit name, and the
model keeps all verbatim content in `graphicItems`. -/
def notUnitNameNode : List Sexpr → Bool
  | .list (.symbol "unit_name" :: _) :: _ => false
  | _ => true

def unitOk (u : LibSymbolSubUnit) : Bool :=
  u.pins.isEmpty &&
  (match u.unitName with
   | some _ => true
   | none => notUnitNameNode u.graphicItems)

/-- A root symbol producible by the owning parser: the fields the owning
parser never sets are absent, ids are well formed, and all nested values
are well ranged. -/
def rootOk (s : LibSymbol) : Bool :=
  idOk s.id && s.excludeFromSim.isNone && s.embeddedFonts.isNone &&
  s.graphicItems.isEmpty && s.pins.isEmpty &&
  (s.pinNames.all pnOk) && s.properties.all propOk && s.units.all unitOk

def derivedOk (d : DerivedLibSymbol) : Bool :=
  idOk d.id && d.properties.all propOk

def symOk : SymbolDefinition → Bool
  | .rootSymbol s => rootOk s
  | .derivedSymbol d => derivedOk d

def libOk (m : SymbolLibraryFile) : Bool :=
  decide (m.version < 2 ^ 32) && m.symbols.all symOk

theorem splitAtColon_append (l r : List Char) (h : ':' ∉ l) :
    splitAtColon (l ++ ':' :: r) = some (l, r) := by
  induction l with
  | nil => simp [splitAtColon]
  | cons a l ih =>
    simp only [List.mem_cons, not_or] at h
    obtain ⟨ha, hl⟩ := h
    have ha2 : ¬(a = ':') := fun hc => ha hc.symm
    simp [splitAtColon, ha2, ih hl]

/-- A well-formed library id survives the parse of its own rendering. -/
theorem libraryId_parse_toStr (id : LibraryId) (h : idOk id = true) :
    LibraryId.parse id.toStr = .ok id := by
  have hmem : ':' ∉ id.library := of_decide_eq_true h
  unfold LibraryId.parse LibraryId.toStr
  have h1 : (String.mk (id.library ++ ':' :: id.name)).toList =
      id.library ++ ':' :: id.name := rfl
  rw [h1, splitAtColon_append _ _ hmem]

/-- `expect_bool_with_name` undoes `bool_with_name`. -/
theorem expectBool_boolWithName (name : String) (b : Bool) (rest : Cursor) :
    expectBoolWithName name (Sexpr.boolWithName name b :: rest) = .ok (b, rest) := by
  cases b <;>
    simp [expectBoolWithName, Sexpr.boolWithName, expectListWithName, expectList,
      expectNext, expectSymbol, expectSymbolMatching]

/-- A cursor whose head does not pass the given presence test. -/
def headNotPresent (present : Cursor → Bool) : Cursor → Prop
  | .list l :: _ => present l = false
  | _ => True

/-- `expect_many` over a rendered sequence of items followed by a
non-matching tail parses back exactly the items. -/
theorem expectMany_build {α : Type} (parse : Cursor → Except Err α)
    (present : Cursor → Bool) (toChildren : α → List Sexpr) (items : List α) (rest : Cursor)
    (hItems : ∀ a ∈ items, present (toChildren a) = true ∧ parse (toChildren a) = .ok a)
    (hStop : headNotPresent present rest) :
    expectManyGeneric parse present (items.map (fun a => Sexpr.list (toChildren a)) ++ rest) =
      .ok (items, rest) := by
  induction items with
  | nil =>
    cases rest with
    | nil => rfl
    | cons t r =>
      cases t with
      | list l =>
        simp only [headNotPresent] at hStop
        simp [expectManyGeneric, hStop]
      | symbol s => simp [expectManyGeneric]
      | str s => simp [expectManyGeneric]
      | num n => simp [expectManyGeneric]
  | cons a items ih =>
    obtain ⟨hp, hparse⟩ := hItems a (List.mem_cons_self a items)
    have ih2 := ih fun x hx => hItems x (List.mem_cons_of_mem a hx)
    simp only [List.map_cons, List.cons_append, expectManyGeneric, hp, if_true, hparse,
      List.append_eq, ih2]

/-! ### Step lemmas: cursor operations on shaped heads -/

theorem expectNext_cons (t : Sexpr) (r : Cursor) : expectNext (t :: r) = .ok (t, r) := rfl

theorem expectSymbol_cons (s : String) (r : Cursor) :
    expectSymbol (.symbol s :: r) = .ok (s, r) := rfl

theorem expectString_cons (s : String) (r : Cursor) :
    expectString (.str s :: r) = .ok (s, r) := rfl

theorem expectNumber_cons (q : ℚ) (r : Cursor) :
    expectNumber (.num q :: r) = .ok (q, r) := rfl

theorem expectList_cons (l : List Sexpr) (r : Cursor) :
    expectList (.list l :: r) = .ok (l, r) := rfl

theorem expectEnd_nil : expectEnd [] = .ok () := rfl

theorem maybeNumber_num (q : ℚ) (r : Cursor) : maybeNumber (.num q :: r) = (some q, r) := rfl

theorem maybeNumber_nil : maybeNumber [] = (none, []) := rfl

theorem expectSymbolMatching_self (n : String) (r : Cursor) :
    expectSymbolMatching n (.symbol n :: r) = .ok r := by
  simp [expectSymbolMatching, expectSymbol, expectNext]

theorem expectListWithName_self (n : String) (l : List Sexpr) (r : Cursor) :
    expectListWithName n (.list (.symbol n :: l) :: r) = .ok (l, r) := by
  simp [expectListWithName, expectList, expectNext, expectSymbolMatching_self]

theorem expectNumberWithName_self (n : String) (q : ℚ) (r : Cursor) :
    expectNumberWithName n (.list [.symbol n, .num q] :: r) = .ok (q, r) := by
  simp [expectNumberWithName, expectListWithName_self, expectNumber_cons]

theorem expectStringWithName_self (n s : String) (extra : List Sexpr) (r : Cursor) :
    expectStringWithName n (.list (.symbol n :: .str s :: extra) :: r) = .ok (s, r) := by
  simp [expectStringWithName, expectListWithName_self, expectString_cons]

theorem maybeListWithName_self (n : String) (l : List Sexpr) (r : Cursor) :
    maybeListWithName n (.list (.symbol n :: l) :: r) = (some l, r) := by
  simp [maybeListWithName, firstSymbol]

theorem maybeListWithName_nil (n : String) : maybeListWithName n [] = (none, []) := rfl

theorem maybeNumberWithName_self (n : String) (q : ℚ) (r : Cursor) :
    maybeNumberWithName n (.list [.symbol n, .num q] :: r) = (some q, r) := by
  simp [maybeNumberWithName, maybeListWithName_self, expectNumber_cons]

theorem maybeNumberWithName_nil (n : String) : maybeNumberWithName n [] = (none, []) := rfl

theorem maybeNumberWithName_symbolHead (n s : String) (r : Cursor) :
    maybeNumberWithName n (.symbol s :: r) = (none, .symbol s :: r) := rfl

theorem maybeStringWithName_self (n s : String) (r : Cursor) :
    maybeStringWithName n (.list [.symbol n, .str s] :: r) = (some s, r) := by
  simp [maybeStringWithName, maybeListWithName_self, expectString_cons]

theorem maybeStringWithName_nil (n : String) : maybeStringWithName n [] = (none, []) := rfl

theorem maybeStringWithName_symbolHead (n s : String) (r : Cursor) :
    maybeStringWithName n (.symbol s :: r) = (none, .symbol s :: r) := rfl

theorem maybeStringWithName_strHead (n s : String) (r : Cursor) :
    maybeStringWithName n (.str s :: r) = (none, .str s :: r) := rfl

theorem maybeStringWithName_numHead (n : String) (q : ℚ) (r : Cursor) :
    maybeStringWithName n (.num q :: r) = (none, .num q :: r) := rfl

theorem maybeStringWithName_emptyListHead (n : String) (r : Cursor) :
    maybeStringWithName n (.list [] :: r) = (none, .list [] :: r) := rfl

theorem maybeStringWithName_miss (n s : String) (l : List Sexpr) (r : Cursor)
    (h : ¬(s = n)) :
    maybeStringWithName n (.list (.symbol s :: l) :: r) =
      (none, .list (.symbol s :: l) :: r) := by
  simp [maybeStringWithName, maybeListWithName, firstSymbol, h]

theorem maybeStringWithName_strListHead (n s : String) (l : List Sexpr) (r : Cursor) :
    maybeStringWithName n (.list (.str s :: l) :: r) =
      (none, .list (.str s :: l) :: r) := rfl

theorem maybeStringWithName_numListHead (n : String) (q : ℚ) (l : List Sexpr) (r : Cursor) :
    maybeStringWithName n (.list (.num q :: l) :: r) =
      (none, .list (.num q :: l) :: r) := rfl

theorem maybeStringWithName_listListHead (n : String) (l2 l : List Sexpr) (r : Cursor) :
    maybeStringWithName n (.list (.list l2 :: l) :: r) =
      (none, .list (.list l2 :: l) :: r) := rfl

theorem maybeEmptyListWithName_self (n : String) (r : Cursor) :
    maybeEmptyListWithName n (.list [.symbol n] :: r) = (true, r) := by
  simp [maybeEmptyListWithName, maybeListWithName_self]

theorem maybeEmptyListWithName_nil (n : String) : maybeEmptyListWithName n [] = (false, []) :=
  rfl

theorem maybeEmptyListWithName_symbolHead (n s : String) (r : Cursor) :
    maybeEmptyListWithName n (.symbol s :: r) = (false, .symbol s :: r) := rfl

theorem maybeSymbolMatching_self (s : String) (r : Cursor) :
    maybeSymbolMatching s (.symbol s :: r) = (true, r) := by
  simp [maybeSymbolMatching]

theorem maybeSymbolMatching_nil (s : String) : maybeSymbolMatching s [] = (false, []) := rfl

theorem maybeSymbolMatching_listHead (s : String) (l : List Sexpr) (r : Cursor) :
    maybeSymbolMatching s (.list l :: r) = (false, .list l :: r) := rfl

theorem maybeBoolWithName_self (n : String) (b : Bool) (r : Cursor) :
    maybeBoolWithName n (Sexpr.boolWithName n b :: r) = .ok (some b, r) := by
  cases b <;>
    simp [maybeBoolWithName, Sexpr.boolWithName, maybeListWithName_self, expectSymbol,
      expectNext]

theorem maybeBoolWithName_nil (n : String) : maybeBoolWithName n [] = .ok (none, []) := rfl

theorem maybeBoolWithName_symbolHead (n s : String) (r : Cursor) :
    maybeBoolWithName n (.symbol s :: r) = .ok (none, .symbol s :: r) := rfl

theorem maybeBoolWithName_hide_yes (r : Cursor) :
    maybeBoolWithName "hide" (.list [.symbol "hide", .symbol "yes"] :: r) =
      .ok (some true, r) := rfl

/-! Literal keyword mismatches occurring in the schema, provable by
kernel computation. -/

theorem maybeNumberWithName_id_at (l : List Sexpr) (r : Cursor) :
    maybeNumberWithName "id" (.list (.symbol "at" :: l) :: r) =
      (none, .list (.symbol "at" :: l) :: r) := rfl

theorem maybeNumberWithName_offset_hide (l : List Sexpr) (r : Cursor) :
    maybeNumberWithName "offset" (.list (.symbol "hide" :: l) :: r) =
      (none, .list (.symbol "hide" :: l) :: r) := rfl

theorem maybeEmptyListWithName_show_dna (l : List Sexpr) (r : Cursor) :
    maybeEmptyListWithName "show_name" (.list (.symbol "do_not_autoplace" :: l) :: r) =
      (false, .list (.symbol "do_not_autoplace" :: l) :: r) := rfl

theorem maybeEmptyListWithName_show_eff (l : List Sexpr) (r : Cursor) :
    maybeEmptyListWithName "show_name" (.list (.symbol "effects" :: l) :: r) =
      (false, .list (.symbol "effects" :: l) :: r) := rfl

theorem maybeEmptyListWithName_dna_eff (l : List Sexpr) (r : Cursor) :
    maybeEmptyListWithName "do_not_autoplace" (.list (.symbol "effects" :: l) :: r) =
      (false, .list (.symbol "effects" :: l) :: r) := rfl

theorem maybeEmptyListWithName_power_pnum (l : List Sexpr) (r : Cursor) :
    maybeEmptyListWithName "power" (.list (.symbol "pin_numbers" :: l) :: r) =
      (false, .list (.symbol "pin_numbers" :: l) :: r) := rfl

theorem maybeEmptyListWithName_power_pnames (l : List Sexpr) (r : Cursor) :
    maybeEmptyListWithName "power" (.list (.symbol "pin_names" :: l) :: r) =
      (false, .list (.symbol "pin_names" :: l) :: r) := rfl

theorem maybeEmptyListWithName_power_inbom (l : List Sexpr) (r : Cursor) :
    maybeEmptyListWithName "power" (.list (.symbol "in_bom" :: l) :: r) =
      (false, .list (.symbol "in_bom" :: l) :: r) := rfl

theorem maybeListWithName_pnum_pnames (l : List Sexpr) (r : Cursor) :
    maybeListWithName "pin_numbers" (.list (.symbol "pin_names" :: l) :: r) =
      (none, .list (.symbol "pin_names" :: l) :: r) := rfl

theorem maybeListWithName_pnum_inbom (l : List Sexpr) (r : Cursor) :
    maybeListWithName "pin_numbers" (.list (.symbol "in_bom" :: l) :: r) =
      (none, .list (.symbol "in_bom" :: l) :: r) := rfl

theorem maybeStringWithName_gv_symbol (l : List Sexpr) (r : Cursor) :
    maybeStringWithName "generator_version" (.list (.symbol "symbol" :: l) :: r) =
      (none, .list (.symbol "symbol" :: l) :: r) := rfl

theorem maybeListWithName_effects_hit (body : List Sexpr) (r : Cursor) :
    maybeListWithName "effects" (.list (.symbol "effects" :: body) :: r) =
      (some body, r) := by
  simp [maybeListWithName_self]

/-! Presence tests on rendered nodes. -/

theorem propPresent_toChildren (p : SymbolProperty) :
    SymbolProperty.isPresent p.toChildren = true := rfl

theorem propPresent_unit (u : LibSymbolSubUnit) :
    SymbolProperty.isPresent u.toChildren = false := rfl

theorem pnPresent_toChildren (p : PinNames) :
    PinNames.isPresent p.toChildren = true := rfl

theorem pnPresent_inbom (l : List Sexpr) :
    PinNames.isPresent (.symbol "in_bom" :: l) = false := rfl

theorem unitPresent_toChildren (u : LibSymbolSubUnit) :
    LibSymbolSubUnit.isPresent u.toChildren = true := rfl

theorem symPresent_root (s : LibSymbol) :
    SymbolDefinition.isPresent s.toChildren = true := rfl

theorem symPresent_derived (d : DerivedLibSymbol) :
    SymbolDefinition.isPresent d.toChildren = true := rfl

/-! `maybe` combinator steps. -/

theorem maybeGeneric_hit {α : Type} (parse : Cursor → Except Err α) (present : Cursor → Bool)
    (l : List Sexpr) (r : Cursor) (a : α) (hp : present l = true) (hparse : parse l = .ok a) :
    maybeGeneric parse present (.list l :: r) = .ok (some a, r) := by
  simp [maybeGeneric, hp, hparse]

theorem maybeGeneric_absent {α : Type} (parse : Cursor → Except Err α)
    (present : Cursor → Bool) (l : List Sexpr) (r : Cursor) (hp : present l = false) :
    maybeGeneric parse present (.list l :: r) = .ok (none, .list l :: r) := by
  simp [maybeGeneric, hp]

theorem maybeGeneric_nil {α : Type} (parse : Cursor → Except Err α)
    (present : Cursor → Bool) : maybeGeneric parse present [] = .ok (none, []) := rfl

/-- A consistent pin-names value survives the parse of its own
rendering. -/
theorem pinNames_parse_build (p : PinNames) (h : pnOk p = true) :
    PinNames.fromSexpr p.toChildren = .ok p := by
  obtain ⟨off, hide, legacy⟩ := p
  cases hide with
  | false =>
    cases legacy with
    | true => exact absurd h (by simp [pnOk])
    | false =>
      cases off <;>
        simp only [PinNames.toChildren, Sexpr.numberWithName, Sexpr.boolWithName,
          List.filterMap_cons, List.filterMap_nil, Bool.and_self, Bool.and_false,
          Bool.false_and, Option.map_none', Option.map_some', Bool.false_eq_true,
          eq_self_iff_true, if_true, if_false, reduceIte, id, PinNames.fromSexpr,
          expectSymbolMatching_self,
          ok_bind, maybeNumberWithName_nil, maybeNumberWithName_self,
          maybeSymbolMatching_nil, maybeBoolWithName_nil, expectEnd_nil]
  | true =>
    cases legacy with
    | true =>
      cases off <;>
        simp only [PinNames.toChildren, Sexpr.numberWithName, Sexpr.boolWithName,
          List.filterMap_cons, List.filterMap_nil, Bool.and_self, Option.map_none',
          Option.map_some', Bool.false_eq_true, eq_self_iff_true, if_true, if_false,
          reduceIte, id, PinNames.fromSexpr, expectSymbolMatching_self, ok_bind,
          maybeNumberWithName_symbolHead, maybeNumberWithName_self,
          maybeSymbolMatching_self, expectEnd_nil]
    | false =>
      cases off <;>
        simp only [PinNames.toChildren, Sexpr.numberWithName, Sexpr.boolWithName,
          List.filterMap_cons, List.filterMap_nil, Bool.and_false, Bool.and_true,
          Bool.true_and, Option.map_none', Option.map_some', Bool.false_eq_true,
          eq_self_iff_true, if_true, if_false, reduceIte, id, PinNames.fromSexpr,
          expectSymbolMatching_self,
          ok_bind, maybeNumberWithName_self, maybeNumberWithName_offset_hide,
          maybeSymbolMatching_listHead, maybeBoolWithName_hide_yes, expectEnd_nil]

set_option maxHeartbeats 1600000 in
/-- A well-ranged property survives the parse of its own rendering. -/
theorem property_parse_build (p : SymbolProperty) (h : propOk p = true) :
    SymbolProperty.fromSexpr p.toChildren = .ok p := by
  obtain ⟨key, value, pos, sn, dna, eff, lid⟩ := p
  obtain ⟨x, y, ang⟩ := pos
  simp only [propOk, Bool.and_eq_true] at h
  cases lid with
  | none =>
    cases ang with
    | none =>
      cases sn <;> cases dna <;> cases eff <;>
        simp only [SymbolProperty.toChildren, Position.toSexpr, Sexpr.numberWithName,
          Sexpr.intNum, Sexpr.intNumberWithName, List.filterMap_cons, List.filterMap_nil, Option.map_none', Option.map_some',
          Option.toList_none, Option.toList_some, Bool.false_eq_true, eq_self_iff_true,
          if_true, if_false, reduceIte, id, List.cons_append,
          List.nil_append, List.append_nil, SymbolProperty.fromSexpr,
          expectSymbolMatching_self, ok_bind, expectString_cons,
          maybeNumberWithName_id_at, expectListWithName_self, expectNumber_cons,
          maybeNumber_nil, expectEnd_nil, maybeEmptyListWithName_self,
          maybeEmptyListWithName_show_dna, maybeEmptyListWithName_show_eff,
          maybeEmptyListWithName_dna_eff, maybeEmptyListWithName_nil,
          maybeListWithName_effects_hit, maybeListWithName_nil]
    | some a =>
      simp only [optIntRange, Bool.and_eq_true, decide_eq_true_eq] at h
      obtain ⟨-, hb1, hb2⟩ := h
      have e1 : ratToI16 ((a : ℤ) : ℚ) = a := ratToI16_intCast a hb1 hb2
      cases sn <;> cases dna <;> cases eff <;>
        simp only [SymbolProperty.toChildren, Position.toSexpr, Sexpr.numberWithName,
          Sexpr.intNum, Sexpr.intNumberWithName, List.filterMap_cons, List.filterMap_nil, Option.map_none', Option.map_some',
          Option.toList_none, Option.toList_some, Bool.false_eq_true, eq_self_iff_true,
          if_true, if_false, reduceIte, id, List.cons_append,
          List.nil_append, List.append_nil, SymbolProperty.fromSexpr,
          expectSymbolMatching_self, ok_bind, expectString_cons,
          maybeNumberWithName_id_at, expectListWithName_self, expectNumber_cons,
          maybeNumber_num, maybeNumber_nil, expectEnd_nil, maybeEmptyListWithName_self,
          maybeEmptyListWithName_show_dna, maybeEmptyListWithName_show_eff,
          maybeEmptyListWithName_dna_eff, maybeEmptyListWithName_nil,
          maybeListWithName_effects_hit, maybeListWithName_nil, e1]
  | some i =>
    cases ang with
    | none =>
      simp only [optIntRange, Bool.and_eq_true, decide_eq_true_eq] at h
      obtain ⟨⟨hb1, hb2⟩, -⟩ := h
      have e2 : ratToI32 ((i : ℤ) : ℚ) = i := ratToI32_intCast i hb1 hb2
      cases sn <;> cases dna <;> cases eff <;>
        simp only [SymbolProperty.toChildren, Position.toSexpr, Sexpr.numberWithName,
          Sexpr.intNum, Sexpr.intNumberWithName, List.filterMap_cons, List.filterMap_nil, Option.map_none', Option.map_some',
          Option.toList_none, Option.toList_some, Bool.false_eq_true, eq_self_iff_true,
          if_true, if_false, reduceIte, id, List.cons_append,
          List.nil_append, List.append_nil, SymbolProperty.fromSexpr,
          expectSymbolMatching_self, ok_bind, expectString_cons,
          maybeNumberWithName_self, expectListWithName_self, expectNumber_cons,
          maybeNumber_nil, expectEnd_nil, maybeEmptyListWithName_self,
          maybeEmptyListWithName_show_dna, maybeEmptyListWithName_show_eff,
          maybeEmptyListWithName_dna_eff, maybeEmptyListWithName_nil,
          maybeListWithName_effects_hit, maybeListWithName_nil, e2]
    | some a =>
      simp only [optIntRange, Bool.and_eq_true, decide_eq_true_eq] at h
      obtain ⟨⟨hb1, hb2⟩, hb3, hb4⟩ := h
      have e1 : ratToI16 ((a : ℤ) : ℚ) = a := ratToI16_intCast a hb3 hb4
      have e2 : ratToI32 ((i : ℤ) : ℚ) = i := ratToI32_intCast i hb1 hb2
      cases sn <;> cases dna <;> cases eff <;>
        simp only [SymbolProperty.toChildren, Position.toSexpr, Sexpr.numberWithName,
          Sexpr.intNum, Sexpr.intNumberWithName, List.filterMap_cons, List.filterMap_nil, Option.map_none', Option.map_some',
          Option.toList_none, Option.toList_some, Bool.false_eq_true, eq_self_iff_true,
          if_true, if_false, reduceIte, id, List.cons_append,
          List.nil_append, List.append_nil, SymbolProperty.fromSexpr,
          expectSymbolMatching_self, ok_bind, expectString_cons,
          maybeNumberWithName_self, expectListWithName_self, expectNumber_cons,
          maybeNumber_num, maybeNumber_nil, expectEnd_nil, maybeEmptyListWithName_self,
          maybeEmptyListWithName_show_dna, maybeEmptyListWithName_show_eff,
          maybeEmptyListWithName_dna_eff, maybeEmptyListWithName_nil,
          maybeListWithName_effects_hit, maybeListWithName_nil, e1, e2]

/-- A well-formed sub-unit survives the parse of its own rendering. -/
theorem unit_parse_build (u : LibSymbolSubUnit) (h : unitOk u = true) :
    LibSymbolSubUnit.fromSexpr u.toChildren = .ok u := by
  obtain ⟨uid, un, gi, pins⟩ := u
  simp only [unitOk, Bool.and_eq_true, List.isEmpty_iff] at h
  obtain ⟨hpins, hrest⟩ := h
  subst hpins
  cases un with
  | some s =>
    simp [LibSymbolSubUnit.fromSexpr, LibSymbolSubUnit.toChildren, UnitId.parse,
      expectSymbolMatching, expectSymbol, expectNext, expectString, maybeStringWithName,
      maybeListWithName, firstSymbol, Sexpr.stringWithName]
  | none =>
    cases gi with
    | nil =>
      simp [LibSymbolSubUnit.fromSexpr, LibSymbolSubUnit.toChildren, UnitId.parse,
        expectSymbolMatching, expectSymbol, expectNext, expectString, maybeStringWithName,
        maybeListWithName, firstSymbol]
    | cons t rest =>
      cases t with
      | list l =>
        cases l with
        | nil =>
          simp [LibSymbolSubUnit.fromSexpr, LibSymbolSubUnit.toChildren, UnitId.parse,
            expectSymbolMatching, expectSymbol, expectNext, expectString,
            maybeStringWithName, maybeListWithName, firstSymbol]
        | cons hd tl =>
          cases hd with
          | symbol s2 =>
            have hs2 : ¬(s2 = "unit_name") := by
              intro hc
              subst hc
              simp [notUnitNameNode] at hrest
            simp [LibSymbolSubUnit.fromSexpr, LibSymbolSubUnit.toChildren, UnitId.parse,
              expectSymbolMatching, expectSymbol, expectNext, expectString,
              maybeStringWithName, maybeListWithName, firstSymbol, hs2]
          | str s2 =>
            simp [LibSymbolSubUnit.fromSexpr, LibSymbolSubUnit.toChildren, UnitId.parse,
              expectSymbolMatching, expectSymbol, expectNext, expectString,
              maybeStringWithName, maybeListWithName, firstSymbol]
          | num n =>
            simp [LibSymbolSubUnit.fromSexpr, LibSymbolSubUnit.toChildren, UnitId.parse,
              expectSymbolMatching, expectSymbol, expectNext, expectString,
              maybeStringWithName, maybeListWithName, firstSymbol]
          | list l2 =>
            simp [LibSymbolSubUnit.fromSexpr, LibSymbolSubUnit.toChildren, UnitId.parse,
              expectSymbolMatching, expectSymbol, expectNext, expectString,
              maybeStringWithName, maybeListWithName, firstSymbol]
      | symbol s2 =>
        simp [LibSymbolSubUnit.fromSexpr, LibSymbolSubUnit.toChildren, UnitId.parse,
          expectSymbolMatching, expectSymbol, expectNext, expectString,
          maybeStringWithName, maybeListWithName, firstSymbol]
      | str s2 =>
        simp [LibSymbolSubUnit.fromSexpr, LibSymbolSubUnit.toChildren, UnitId.parse,
          expectSymbolMatching, expectSymbol, expectNext, expectString,
          maybeStringWithName, maybeListWithName, firstSymbol]
      | num n =>
        simp [LibSymbolSubUnit.fromSexpr, LibSymbolSubUnit.toChildren, UnitId.parse,
          expectSymbolMatching, expectSymbol, expectNext, expectString,
          maybeStringWithName, maybeListWithName, firstSymbol]

/-! ### Step lemmas at the symbol level -/

/-- The children of a serialized symbol definition. -/
def SymbolDefinition.toChildren : SymbolDefinition → List Sexpr
  | .rootSymbol s => s.toChildren
  | .derivedSymbol d => d.toChildren

theorem symbolDef_toSexpr_toChildren (d : SymbolDefinition) :
    d.toSexpr = .list d.toChildren := by
  cases d <;> rfl

theorem parsePinNumbers_hide : parsePinNumbers (some [.symbol "hide"]) = .ok true := rfl

theorem parsePinNumbers_none : parsePinNumbers none = .ok false := rfl

theorem maybeEmptyListWithName_power_pnumNode (r : Cursor) :
    maybeEmptyListWithName "power" (Sexpr.symbolWithName "pin_numbers" "hide" :: r) =
      (false, Sexpr.symbolWithName "pin_numbers" "hide" :: r) := rfl

theorem maybeEmptyListWithName_power_pnNode (p : PinNames) (r : Cursor) :
    maybeEmptyListWithName "power" (.list p.toChildren :: r) =
      (false, .list p.toChildren :: r) := rfl

theorem maybeEmptyListWithName_power_boolNode (b : Bool) (r : Cursor) :
    maybeEmptyListWithName "power" (Sexpr.boolWithName "in_bom" b :: r) =
      (false, Sexpr.boolWithName "in_bom" b :: r) := by
  cases b <;> rfl

theorem maybeListWithName_pnum_hitNode (r : Cursor) :
    maybeListWithName "pin_numbers" (Sexpr.symbolWithName "pin_numbers" "hide" :: r) =
      (some [.symbol "hide"], r) := rfl

theorem maybeListWithName_pnum_pnNode (p : PinNames) (r : Cursor) :
    maybeListWithName "pin_numbers" (.list p.toChildren :: r) =
      (none, .list p.toChildren :: r) := rfl

theorem maybeListWithName_pnum_boolNode (b : Bool) (r : Cursor) :
    maybeListWithName "pin_numbers" (Sexpr.boolWithName "in_bom" b :: r) =
      (none, Sexpr.boolWithName "in_bom" b :: r) := by
  cases b <;> rfl

theorem maybeGeneric_pn_boolNode (b : Bool) (r : Cursor) :
    maybeGeneric PinNames.fromSexpr PinNames.isPresent
        (Sexpr.boolWithName "in_bom" b :: r) =
      .ok (none, Sexpr.boolWithName "in_bom" b :: r) := by
  cases b <;> rfl

theorem expectStringWithName_strNode (n s : String) (r : Cursor) :
    expectStringWithName n (Sexpr.stringWithName n s :: r) = .ok (s, r) := by
  simp [Sexpr.stringWithName, expectStringWithName, expectListWithName_self,
    expectString_cons]

theorem extendsFollows_powerNode (x y : Sexpr) (l : List Sexpr) (r : Cursor) :
    extendsFollows (x :: y :: .list (.symbol "power" :: l) :: r) = false := rfl

theorem extendsFollows_pnumNode (x y : Sexpr) (r : Cursor) :
    extendsFollows (x :: y :: Sexpr.symbolWithName "pin_numbers" "hide" :: r) = false := rfl

theorem extendsFollows_pnNode (x y : Sexpr) (p : PinNames) (r : Cursor) :
    extendsFollows (x :: y :: .list p.toChildren :: r) = false := rfl

theorem extendsFollows_boolNode (x y : Sexpr) (b : Bool) (r : Cursor) :
    extendsFollows (x :: y :: Sexpr.boolWithName "in_bom" b :: r) = false := by
  cases b <;> rfl

theorem extendsFollows_extendsNode (x y : Sexpr) (e : String) (r : Cursor) :
    extendsFollows (x :: y :: Sexpr.stringWithName "extends" e :: r) = true := rfl

theorem headNotPresent_nil (present : Cursor → Bool) : headNotPresent present [] :=
  trivial

theorem headNotPresent_prop_units (units : List LibSymbolSubUnit) :
    headNotPresent SymbolProperty.isPresent
      (units.map fun u => Sexpr.list u.toChildren) := by
  cases units with
  | nil => trivial
  | cons u us => exact propPresent_unit u

/-- Dispatch of `SymbolDefinition::from_sexpr` into the root branch when
no `(extends …)` node follows the prefix. -/
theorem symbolDef_fromSexpr_root (idStr : String) (c2 : Cursor)
    (hc : extendsFollows (.symbol "symbol" :: .str idStr :: c2) = false) :
    SymbolDefinition.fromSexpr (.symbol "symbol" :: .str idStr :: c2) =
      LibraryId.parse idStr >>= fun id => (parseRootTail id c2).map .rootSymbol := by
  unfold SymbolDefinition.fromSexpr
  rw [extendsFollows_cons2] at hc
  simp only [expectSymbolMatching_self, ok_bind, expectString_cons, hc,
    Bool.false_eq_true, if_false]

/-- Dispatch of `SymbolDefinition::from_sexpr` into the derived branch
when an `(extends …)` node follows the prefix. -/
theorem symbolDef_fromSexpr_derived (idStr : String) (c2 : Cursor)
    (hc : extendsFollows (.symbol "symbol" :: .str idStr :: c2) = true) :
    SymbolDefinition.fromSexpr (.symbol "symbol" :: .str idStr :: c2) =
      LibraryId.parse idStr >>= fun id => (parseDerivedTail id c2).map .derivedSymbol := by
  unfold SymbolDefinition.fromSexpr
  rw [extendsFollows_cons2] at hc
  simp only [expectSymbolMatching_self, ok_bind, expectString_cons, hc,
    eq_self_iff_true, if_true]

theorem filterMap_id_map_some {β : Type} (f : β → Sexpr) (l : List β) :
    List.filterMap (fun o => o) (l.map fun x => some (f x)) = l.map f := by
  induction l with
  | nil => rfl
  | cons a l ih => simp only [List.map_cons, List.filterMap_cons, ih]

theorem filterMap_id_map_some2 {β : Type} (f : β → Sexpr) (l : List β) :
    List.filterMap id (l.map fun x => some (f x)) = l.map f := by
  induction l with
  | nil => rfl
  | cons a l ih => simp only [List.map_cons, List.filterMap_cons, id_eq, ih]

/-- A well-formed derived symbol survives the parse of its own
rendering. -/
theorem derived_parse_build (d : DerivedLibSymbol) (h : derivedOk d = true) :
    SymbolDefinition.fromSexpr d.toChildren = .ok (.derivedSymbol d) := by
  obtain ⟨id, ext, props⟩ := d
  simp only [derivedOk, Bool.and_eq_true, List.all_eq_true] at h
  obtain ⟨hid, hprops⟩ := h
  have hmany : ∀ r, headNotPresent SymbolProperty.isPresent r →
      expectManyGeneric SymbolProperty.fromSexpr SymbolProperty.isPresent
        (props.map (fun p => Sexpr.list p.toChildren) ++ r) = .ok (props, r) :=
    fun r hr => expectMany_build _ _ _ _ _
      (fun a ha => ⟨propPresent_toChildren a, property_parse_build a (hprops a ha)⟩) hr
  have hm := hmany [] (headNotPresent_nil _)
  rw [List.append_nil] at hm
  simp only [DerivedLibSymbol.toChildren, LibraryId.toSexpr, List.filterMap_cons,
    List.cons_append, List.nil_append, filterMap_id_map_some]
  rw [show (SymbolProperty.toSexpr : SymbolProperty → Sexpr) =
    fun p => Sexpr.list p.toChildren from funext fun p => rfl]
  rw [symbolDef_fromSexpr_derived _ _ (extendsFollows_extendsNode _ _ _ _)]
  rw [libraryId_parse_toStr _ hid]
  simp only [ok_bind, parseDerivedTail, expectStringWithName_strNode, hm, expectEnd_nil,
    ok_map]

theorem propToSexpr_fun :
    (SymbolProperty.toSexpr : SymbolProperty → Sexpr) =
      fun p => Sexpr.list p.toChildren := funext fun _ => rfl

theorem unitToSexpr_fun :
    (LibSymbolSubUnit.toSexpr : LibSymbolSubUnit → Sexpr) =
      fun u => Sexpr.list u.toChildren := funext fun _ => rfl

set_option maxHeartbeats 1600000 in
/-- A well-formed root symbol survives the parse of its own rendering. -/
theorem root_parse_build (s : LibSymbol) (h : rootOk s = true) :
    SymbolDefinition.fromSexpr s.toChildren = .ok (.rootSymbol s) := by
  obtain ⟨id, power, hpnum, pn, excl, inb, onb, props, gi, pins, units, emb⟩ := s
  simp only [rootOk, Bool.and_eq_true] at h
  obtain ⟨⟨⟨⟨⟨⟨⟨hid, hexcl⟩, hemb⟩, hgi⟩, hpins⟩, hpn⟩, hprops⟩, hunits⟩ := h
  rw [Option.isNone_iff_eq_none] at hexcl hemb
  rw [List.isEmpty_iff] at hgi hpins
  subst hexcl hemb hgi hpins
  rw [List.all_eq_true] at hprops hunits
  have hmany1 : ∀ r, headNotPresent SymbolProperty.isPresent r →
      expectManyGeneric SymbolProperty.fromSexpr SymbolProperty.isPresent
        (props.map (fun p => Sexpr.list p.toChildren) ++ r) = .ok (props, r) :=
    fun r hr => expectMany_build _ _ _ _ _
      (fun a ha => ⟨propPresent_toChildren a, property_parse_build a (hprops a ha)⟩) hr
  have hmany2 : ∀ r, headNotPresent LibSymbolSubUnit.isPresent r →
      expectManyGeneric LibSymbolSubUnit.fromSexpr LibSymbolSubUnit.isPresent
        (units.map (fun u => Sexpr.list u.toChildren) ++ r) = .ok (units, r) :=
    fun r hr => expectMany_build _ _ _ _ _
      (fun a ha => ⟨unitPresent_toChildren a, unit_parse_build a (hunits a ha)⟩) hr
  have hm2 := hmany2 [] (headNotPresent_nil _)
  rw [List.append_nil] at hm2
  have hm1 := hmany1 (units.map fun u => Sexpr.list u.toChildren)
    (headNotPresent_prop_units units)
  cases pn with
  | none =>
    cases power <;> cases hpnum <;>
      (simp only [LibSymbol.toChildren, LibraryId.toSexpr, List.filterMap_cons,
        List.filterMap_nil, List.filterMap_append, List.cons_append, List.nil_append,
        List.append_nil, List.map_nil, Option.map_none', Option.map_some',
        propToSexpr_fun, unitToSexpr_fun, Bool.false_eq_true, eq_self_iff_true, if_true,
        if_false, reduceIte, filterMap_id_map_some]) <;>
      (simp only [symbolDef_fromSexpr_root, extendsFollows_powerNode,
        extendsFollows_pnumNode, extendsFollows_boolNode]) <;>
      (rw [libraryId_parse_toStr _ hid]) <;>
      simp only [ok_bind, parseRootTail, maybeEmptyListWithName_self,
        maybeEmptyListWithName_power_pnumNode, maybeEmptyListWithName_power_boolNode,
        maybeListWithName_pnum_hitNode, maybeListWithName_pnum_boolNode,
        parsePinNumbers_hide, parsePinNumbers_none, maybeGeneric_pn_boolNode,
        expectBool_boolWithName, hm1, hm2, expectEnd_nil, ok_map]
  | some p =>
    simp only [Option.all] at hpn
    have hpnstep : ∀ r, maybeGeneric PinNames.fromSexpr PinNames.isPresent
        (.list p.toChildren :: r) = .ok (some p, r) :=
      fun r => maybeGeneric_hit _ _ _ _ _ (pnPresent_toChildren p)
        (pinNames_parse_build p hpn)
    cases power <;> cases hpnum <;>
      (simp only [LibSymbol.toChildren, LibraryId.toSexpr, PinNames.toSexpr,
        List.filterMap_cons, List.filterMap_nil, List.filterMap_append, List.cons_append,
        List.nil_append, List.append_nil, List.map_nil, Option.map_none',
        Option.map_some', propToSexpr_fun, unitToSexpr_fun, Bool.false_eq_true,
        eq_self_iff_true, if_true, if_false, reduceIte, filterMap_id_map_some]) <;>
      (simp only [symbolDef_fromSexpr_root, extendsFollows_powerNode,
        extendsFollows_pnumNode, extendsFollows_pnNode]) <;>
      (rw [libraryId_parse_toStr _ hid]) <;>
      simp only [ok_bind, parseRootTail, maybeEmptyListWithName_self,
        maybeEmptyListWithName_power_pnumNode, maybeEmptyListWithName_power_pnNode,
        maybeListWithName_pnum_hitNode, maybeListWithName_pnum_pnNode,
        parsePinNumbers_hide, parsePinNumbers_none, hpnstep,
        expectBool_boolWithName, hm1, hm2, expectEnd_nil, ok_map]

/-- A well-formed symbol definition survives the parse of its own
rendering. -/
theorem symbolDef_parse_build (d : SymbolDefinition) (h : symOk d = true) :
    SymbolDefinition.fromSexpr d.toChildren = .ok d := by
  cases d with
  | rootSymbol s => exact root_parse_build s h
  | derivedSymbol d => exact derived_parse_build d h

theorem symPresent_toChildren (d : SymbolDefinition) :
    SymbolDefinition.isPresent d.toChildren = true := by
  cases d <;> rfl

theorem symDefToSexpr_fun :
    (SymbolDefinition.toSexpr : SymbolDefinition → Sexpr) =
      fun d => Sexpr.list d.toChildren := funext fun d => symbolDef_toSexpr_toChildren d

theorem maybeStringWithName_gv_symsMap (syms : List SymbolDefinition) :
    maybeStringWithName "generator_version" (syms.map fun d => Sexpr.list d.toChildren) =
      (none, syms.map fun d => Sexpr.list d.toChildren) := by
  cases syms with
  | nil => rfl
  | cons d ds => cases d <;> rfl

set_option maxHeartbeats 1600000 in
/-- A well-ranged library model survives the parse of its own
rendering. -/
theorem lib_parse_build (m : SymbolLibraryFile) (h : libOk m = true) :
    parseLib m.toSexpr = .ok m := by
  obtain ⟨v, g, isStr, gv, syms⟩ := m
  simp only [libOk, Bool.and_eq_true, decide_eq_true_eq, List.all_eq_true] at h
  obtain ⟨hv, hsymsOk⟩ := h
  have e : ratToU32 ((v : ℕ) : ℚ) = v := ratToU32_natCast v hv
  have hsyms : ∀ r, headNotPresent SymbolDefinition.isPresent r →
      expectManyGeneric SymbolDefinition.fromSexpr SymbolDefinition.isPresent
        (syms.map (fun d => Sexpr.list d.toChildren) ++ r) = .ok (syms, r) :=
    fun r hr => expectMany_build _ _ _ _ _
      (fun a ha => ⟨symPresent_toChildren a, symbolDef_parse_build a (hsymsOk a ha)⟩) hr
  have hs := hsyms [] (headNotPresent_nil _)
  rw [List.append_nil] at hs
  cases isStr <;> cases gv <;>
    simp only [parseLib, SymbolLibraryFile.toSexpr, SymbolLibraryFile.toChildren,
      Sexpr.numberWithName, Sexpr.stringWithName, Sexpr.symbolWithName, symDefToSexpr_fun,
      List.filterMap_cons, List.filterMap_nil, List.filterMap_append, List.cons_append,
      List.nil_append, List.append_nil, List.map_nil, Option.map_none', Option.map_some',
      Bool.false_eq_true, eq_self_iff_true, if_true, if_false, reduceIte, id_eq,
      filterMap_id_map_some, filterMap_id_map_some2, SymbolLibraryFile.fromSexpr,
      expectSymbolMatching_self,
      ok_bind, expectNumberWithName_self, expectListWithName_self, expectEnd_nil, e,
      SymbolLibraryFile.finish, maybeStringWithName_self, maybeStringWithName_nil,
      maybeStringWithName_gv_symsMap, hs]

/-- The c1 legality predicate: a token tree is a legal symbol-library
document when it is the rendering of a well-ranged model; the serializer
replays recorded provenance, so its image covers every representable
legal spelling. -/
def legalLibTree (t : Sexpr) : Prop :=
  ∃ m, libOk m = true ∧ t = SymbolLibraryFile.toSexpr m

/-- **C1 (amended)**.  For every legal symbol-library token tree avoiding
the information-losing spellings the model cannot represent (the
`(hide no)` pin-names node, `true`/`false` boolean spellings), parsing
and then serializing yields the tree back, and re-parsing the serialized
tree yields the same model. -/
theorem c1_roundtrip_amended (t : Sexpr) (h : legalLibTree t) :
    ∃ m, parseLib t = .ok m ∧ SymbolLibraryFile.toSexpr m = t ∧
      parseLib (SymbolLibraryFile.toSexpr m) = .ok m := by
  obtain ⟨m, hok, rfl⟩ := h
  exact ⟨m, lib_parse_build m hok, rfl, lib_parse_build m hok⟩

/-- Witness for the amended C1 at the spec's scenario document extended
with one root symbol. -/
theorem c1_roundtrip_amended_witness :
    legalLibTree (SymbolLibraryFile.toSexpr
      ⟨20211014, "kicad_symbol_editor", false, none,
        [.rootSymbol ⟨⟨"Device".toList, "R".toList⟩, false, false, none, none, true, true,
          [], [], [], [], none⟩]⟩) ∧
    ∃ m, parseLib (SymbolLibraryFile.toSexpr
        ⟨20211014, "kicad_symbol_editor", false, none,
          [.rootSymbol ⟨⟨"Device".toList, "R".toList⟩, false, false, none, none, true,
            true, [], [], [], [], none⟩]⟩) = .ok m ∧
      SymbolLibraryFile.toSexpr m = SymbolLibraryFile.toSexpr
        ⟨20211014, "kicad_symbol_editor", false, none,
          [.rootSymbol ⟨⟨"Device".toList, "R".toList⟩, false, false, none, none, true,
            true, [], [], [], [], none⟩]⟩ ∧
      parseLib (SymbolLibraryFile.toSexpr m) = .ok m :=
  ⟨⟨_, by decide, rfl⟩, c1_roundtrip_amended _ ⟨_, by decide, rfl⟩⟩

/-- **C1 (counterexample)**.  The legal document
`(kicad_symbol_lib (version 1) (generator "g") (symbol "a:b"
(pin_names (hide no)) (in_bom yes) (on_board yes)))` parses successfully,
but serializing the parsed model re-emits `(pin_names)` instead of
`(pin_names (hide no))`: `serialize(parse(t))` is not structurally equal
to `t`, so the round-trip claim fails on the legal `(hide no)`
spelling. -/
theorem c1_roundtrip_counterexample :
    (parseLib (.list [.symbol "kicad_symbol_lib",
        .list [.symbol "version", .num 1],
        .list [.symbol "generator", .str "g"],
        .list [.symbol "symbol", .str "a:b",
          .list [.symbol "pin_names", .list [.symbol "hide", .symbol "no"]],
          .list [.symbol "in_bom", .symbol "yes"],
          .list [.symbol "on_board", .symbol "yes"]]])).isOk = true ∧
    (parseLib (.list [.symbol "kicad_symbol_lib",
        .list [.symbol "version", .num 1],
        .list [.symbol "generator", .str "g"],
        .list [.symbol "symbol", .str "a:b",
          .list [.symbol "pin_names", .list [.symbol "hide", .symbol "no"]],
          .list [.symbol "in_bom", .symbol "yes"],
          .list [.symbol "on_board", .symbol "yes"]]])).map SymbolLibraryFile.toSexpr =
      .ok (.list [.symbol "kicad_symbol_lib",
        .list [.symbol "version", .num 1],
        .list [.symbol "generator", .str "g"],
        .list [.symbol "symbol", .str "a:b",
          .list [.symbol "pin_names"],
          .list [.symbol "in_bom", .symbol "yes"],
          .list [.symbol "on_board", .symbol "yes"]]]) ∧
    (parseLib (.list [.symbol "kicad_symbol_lib",
        .list [.symbol "version", .num 1],
        .list [.symbol "generator", .str "g"],
        .list [.symbol "symbol", .str "a:b",
          .list [.symbol "pin_names", .list [.symbol "hide", .symbol "no"]],
          .list [.symbol "in_bom", .symbol "yes"],
          .list [.symbol "on_board", .symbol "yes"]]])).map SymbolLibraryFile.toSexpr ≠
      .ok (.list [.symbol "kicad_symbol_lib",
        .list [.symbol "version", .num 1],
        .list [.symbol "generator", .str "g"],
        .list [.symbol "symbol", .str "a:b",
          .list [.symbol "pin_names", .list [.symbol "hide", .symbol "no"]],
          .list [.symbol "in_bom", .symbol "yes"],
          .list [.symbol "on_board", .symbol "yes"]]]) := by
  refine ⟨by decide, by decide, by decide⟩

/-! ### Agreement of the owning and fast parsers on the shared core
grammar -/

/-- The owning pin-names value seen through the fast model. -/
def PinNames.toFast (p : PinNames) : PinNamesFast := ⟨p.offset, p.hide, p.hideLegacyFormat⟩

/-- The fast parser's view of a content-free sub-unit. -/
def LibSymbolSubUnit.toFastCore (u : LibSymbolSubUnit) : LibSymbolSubUnitFast :=
  ⟨u.id, u.unitName, [], []⟩

/-- The shared core grammar: symbol definitions without property nodes
and whose sub-units carry no graphic/pin content — the fragment both
parsers implement completely. -/
def coreOk : SymbolDefinition → Bool
  | .rootSymbol s =>
    rootOk s && s.properties.isEmpty && (s.units.all fun u => u.graphicItems.isEmpty)
  | .derivedSymbol d => derivedOk d && d.properties.isEmpty

theorem expectMany_stop {α : Type} (parse : Cursor → Except Err α)
    (present : Cursor → Bool) (rest : Cursor) (hStop : headNotPresent present rest) :
    expectManyGeneric parse present rest = .ok ([], rest) := by
  cases rest with
  | nil => rfl
  | cons t r =>
    cases t with
    | list l =>
      simp only [headNotPresent] at hStop
      simp [expectManyGeneric, hStop]
    | symbol s => rfl
    | str s => rfl
    | num n => rfl

/-- `expect_many` over rendered items with a converting parser. -/
theorem expectMany_build_conv {α β : Type} (parse : Cursor → Except Err β)
    (present : Cursor → Bool) (toChildren : α → List Sexpr) (conv : α → β)
    (items : List α) (rest : Cursor)
    (hItems : ∀ a ∈ items, present (toChildren a) = true ∧
      parse (toChildren a) = .ok (conv a))
    (hStop : headNotPresent present rest) :
    expectManyGeneric parse present
        (items.map (fun a => Sexpr.list (toChildren a)) ++ rest) =
      .ok (items.map conv, rest) := by
  induction items with
  | nil => exact expectMany_stop _ _ _ hStop
  | cons a items ih =>
    obtain ⟨hp, hparse⟩ := hItems a (List.mem_cons_self a items)
    have ih2 := ih fun x hx => hItems x (List.mem_cons_of_mem a hx)
    simp only [List.map_cons, List.cons_append, expectManyGeneric, hp, if_true, hparse,
      List.append_eq, ih2]

theorem pnFastPresent_toChildren (p : PinNames) :
    PinNamesFast.isPresentRef p.toChildren = true := rfl

theorem fastPropPresent_unit (u : LibSymbolSubUnit) :
    SymbolPropertyFast.isPresentRef u.toChildren = false := rfl

theorem fastUnitPresent_toChildren (u : LibSymbolSubUnit) :
    LibSymbolSubUnitFast.isPresentRef u.toChildren = true := rfl

theorem headNotPresent_fastProp_units (units : List LibSymbolSubUnit) :
    headNotPresent SymbolPropertyFast.isPresentRef
      (units.map fun u => Sexpr.list u.toChildren) := by
  cases units with
  | nil => trivial
  | cons u us => exact fastPropPresent_unit u

theorem maybeGeneric_pnFast_boolNode (b : Bool) (r : Cursor) :
    maybeGeneric PinNamesFast.fromSexprRef PinNamesFast.isPresentRef
        (Sexpr.boolWithName "in_bom" b :: r) =
      .ok (none, Sexpr.boolWithName "in_bom" b :: r) := by
  cases b <;> rfl

theorem maybeBoolWithName_excl_inbom (b : Bool) (r : Cursor) :
    maybeBoolWithName "exclude_from_sim" (Sexpr.boolWithName "in_bom" b :: r) =
      .ok (none, Sexpr.boolWithName "in_bom" b :: r) := by
  cases b <;> rfl

/-- Dispatch of the fast parser into the root branch. -/
theorem symbolDefFast_fromSexpr_root (idStr : String) (c2 : Cursor)
    (hc : extendsFollows (.symbol "symbol" :: .str idStr :: c2) = false) :
    SymbolDefinitionFast.fromSexprRef (.symbol "symbol" :: .str idStr :: c2) =
      LibraryId.parse idStr >>= fun id => (parseRootTailFast id c2).map .rootSymbol := by
  unfold SymbolDefinitionFast.fromSexprRef
  rw [extendsFollows_cons2] at hc
  simp only [expectSymbolMatching_self, ok_bind, expectString_cons, hc,
    Bool.false_eq_true, if_false]

/-- Dispatch of the fast parser into the derived branch. -/
theorem symbolDefFast_fromSexpr_derived (idStr : String) (c2 : Cursor)
    (hc : extendsFollows (.symbol "symbol" :: .str idStr :: c2) = true) :
    SymbolDefinitionFast.fromSexprRef (.symbol "symbol" :: .str idStr :: c2) =
      LibraryId.parse idStr >>= fun id =>
        (parseDerivedTailFast id c2).map .derivedSymbol := by
  unfold SymbolDefinitionFast.fromSexprRef
  rw [extendsFollows_cons2] at hc
  simp only [expectSymbolMatching_self, ok_bind, expectString_cons, hc,
    eq_self_iff_true, if_true]

set_option maxHeartbeats 1600000 in
/-- The fast pin-names parser agrees with the owning one on rendered
pin-names nodes. -/
theorem pinNamesFast_parse_build (p : PinNames) (h : pnOk p = true) :
    PinNamesFast.fromSexprRef p.toChildren = .ok p.toFast := by
  obtain ⟨off, hide, legacy⟩ := p
  cases hide with
  | false =>
    cases legacy with
    | true => exact absurd h (by simp [pnOk])
    | false =>
      cases off <;>
        simp only [PinNames.toChildren, PinNames.toFast, Sexpr.numberWithName,
          Sexpr.boolWithName, List.filterMap_cons, List.filterMap_nil, Bool.and_self,
          Bool.and_false, Bool.false_and, Option.map_none', Option.map_some',
          Bool.false_eq_true, eq_self_iff_true, if_true, if_false, reduceIte, id,
          PinNamesFast.fromSexprRef, expectSymbolMatching_self, ok_bind,
          maybeNumberWithName_nil, maybeNumberWithName_self, maybeSymbolMatching_nil,
          maybeBoolWithName_nil, expectEnd_nil]
  | true =>
    cases legacy with
    | true =>
      cases off <;>
        simp only [PinNames.toChildren, PinNames.toFast, Sexpr.numberWithName,
          Sexpr.boolWithName, List.filterMap_cons, List.filterMap_nil, Bool.and_self,
          Option.map_none', Option.map_some', Bool.false_eq_true, eq_self_iff_true,
          if_true, if_false, reduceIte, id, PinNamesFast.fromSexprRef,
          expectSymbolMatching_self, ok_bind, maybeNumberWithName_symbolHead,
          maybeNumberWithName_self, maybeSymbolMatching_self, expectEnd_nil]
    | false =>
      cases off <;>
        simp only [PinNames.toChildren, PinNames.toFast, Sexpr.numberWithName,
          Sexpr.boolWithName, List.filterMap_cons, List.filterMap_nil, Bool.and_false,
          Bool.and_true, Bool.true_and, Option.map_none', Option.map_some',
          Bool.false_eq_true, eq_self_iff_true, if_true, if_false, reduceIte, id,
          PinNamesFast.fromSexprRef, expectSymbolMatching_self, ok_bind,
          maybeNumberWithName_self, maybeNumberWithName_offset_hide,
          maybeSymbolMatching_listHead, maybeBoolWithName_hide_yes, expectEnd_nil]

/-- The fast sub-unit parser agrees with the owning one on content-free
sub-units. -/
theorem unitFast_parse_build (u : LibSymbolSubUnit) (hg : u.graphicItems = [])
    (hp : u.pins = []) :
    LibSymbolSubUnitFast.fromSexprRef u.toChildren = .ok u.toFastCore := by
  obtain ⟨uid, un, gi, pins⟩ := u
  simp only at hg hp
  subst hg hp
  cases un <;>
    simp only [LibSymbolSubUnit.toChildren, LibSymbolSubUnit.toFastCore,
      Sexpr.stringWithName, Option.toList_none, Option.toList_some, Option.map_none',
      Option.map_some', List.cons_append, List.nil_append, List.append_nil,
      LibSymbolSubUnitFast.fromSexprRef, UnitId.parse, expectSymbolMatching_self, ok_bind,
      expectString_cons, maybeStringWithName_nil, maybeStringWithName_self]

set_option maxHeartbeats 1600000 in
/-- The fast root-symbol parser agrees with the owning one on the shared
core grammar. -/
theorem rootFast_parse_build (s : LibSymbol) (h : rootOk s = true)
    (hprops : s.properties = []) (hgiu : ∀ u ∈ s.units, u.graphicItems = []) :
    SymbolDefinitionFast.fromSexprRef s.toChildren =
      .ok (.rootSymbol ⟨s.id, s.power, s.hidePinNumbers, s.pinNames.map PinNames.toFast,
        none, s.inBom, s.onBoard, [], [], [], s.units.map LibSymbolSubUnit.toFastCore,
        none⟩) := by
  obtain ⟨id, power, hpnum, pn, excl, inb, onb, props, gi, pins, units, emb⟩ := s
  simp only at hprops hgiu
  subst hprops
  simp only [rootOk, Bool.and_eq_true] at h
  obtain ⟨⟨⟨⟨⟨⟨⟨hid, hexcl⟩, hemb⟩, hgi⟩, hpins⟩, hpn⟩, -⟩, hunits⟩ := h
  rw [Option.isNone_iff_eq_none] at hexcl hemb
  rw [List.isEmpty_iff] at hgi hpins
  subst hexcl hemb hgi hpins
  rw [List.all_eq_true] at hunits
  have hunitsPins : ∀ u ∈ units, u.pins = [] := by
    intro u hu
    have := hunits u hu
    simp only [unitOk, Bool.and_eq_true, List.isEmpty_iff] at this
    exact this.1
  have hmanyU : ∀ r, headNotPresent LibSymbolSubUnitFast.isPresentRef r →
      expectManyGeneric LibSymbolSubUnitFast.fromSexprRef LibSymbolSubUnitFast.isPresentRef
        (units.map (fun u => Sexpr.list u.toChildren) ++ r) =
      .ok (units.map LibSymbolSubUnit.toFastCore, r) :=
    fun r hr => expectMany_build_conv _ _ _ _ _ _
      (fun a ha => ⟨fastUnitPresent_toChildren a,
        unitFast_parse_build a (hgiu a ha) (hunitsPins a ha)⟩) hr
  have hmU := hmanyU [] (headNotPresent_nil _)
  rw [List.append_nil] at hmU
  have hmP := expectMany_stop SymbolPropertyFast.fromSexprRef
    SymbolPropertyFast.isPresentRef (units.map fun u => Sexpr.list u.toChildren)
    (headNotPresent_fastProp_units units)
  cases pn with
  | none =>
    cases power <;> cases hpnum <;>
      (simp only [LibSymbol.toChildren, LibraryId.toSexpr, List.filterMap_cons,
        List.filterMap_nil, List.filterMap_append, List.cons_append, List.nil_append,
        List.append_nil, List.map_nil, Option.map_none', Option.map_some',
        propToSexpr_fun, unitToSexpr_fun, Bool.false_eq_true, eq_self_iff_true, if_true,
        if_false, reduceIte, filterMap_id_map_some]) <;>
      (simp only [symbolDefFast_fromSexpr_root, extendsFollows_powerNode,
        extendsFollows_pnumNode, extendsFollows_boolNode]) <;>
      (rw [libraryId_parse_toStr _ hid]) <;>
      simp only [ok_bind, parseRootTailFast, maybeEmptyListWithName_self,
        maybeEmptyListWithName_power_pnumNode, maybeEmptyListWithName_power_boolNode,
        maybeListWithName_pnum_hitNode, maybeListWithName_pnum_boolNode,
        parsePinNumbers_hide, parsePinNumbers_none, maybeGeneric_pnFast_boolNode,
        maybeBoolWithName_excl_inbom, expectBool_boolWithName, hmP, hmU,
        maybeBoolWithName_nil, Option.map_none', ok_map]
  | some p =>
    simp only [Option.all] at hpn
    have hpnstep : ∀ r, maybeGeneric PinNamesFast.fromSexprRef PinNamesFast.isPresentRef
        (.list p.toChildren :: r) = .ok (some p.toFast, r) :=
      fun r => maybeGeneric_hit _ _ _ _ _ (pnFastPresent_toChildren p)
        (pinNamesFast_parse_build p hpn)
    cases power <;> cases hpnum <;>
      (simp only [LibSymbol.toChildren, LibraryId.toSexpr, PinNames.toSexpr,
        List.filterMap_cons, List.filterMap_nil, List.filterMap_append, List.cons_append,
        List.nil_append, List.append_nil, List.map_nil, Option.map_none',
        Option.map_some', propToSexpr_fun, unitToSexpr_fun, Bool.false_eq_true,
        eq_self_iff_true, if_true, if_false, reduceIte, filterMap_id_map_some]) <;>
      (simp only [symbolDefFast_fromSexpr_root, extendsFollows_powerNode,
        extendsFollows_pnumNode, extendsFollows_pnNode]) <;>
      (rw [libraryId_parse_toStr _ hid]) <;>
      simp only [ok_bind, parseRootTailFast, maybeEmptyListWithName_self,
        maybeEmptyListWithName_power_pnumNode, maybeEmptyListWithName_power_pnNode,
        maybeListWithName_pnum_hitNode, maybeListWithName_pnum_pnNode,
        parsePinNumbers_hide, parsePinNumbers_none, hpnstep,
        maybeBoolWithName_excl_inbom, expectBool_boolWithName, hmP, hmU,
        maybeBoolWithName_nil, Option.map_some', ok_map]

/-- The fast derived-symbol parser agrees with the owning one on
property-free derived symbols. -/
theorem derivedFast_parse_build (d : DerivedLibSymbol) (hid : idOk d.id = true)
    (hp : d.properties = []) :
    SymbolDefinitionFast.fromSexprRef d.toChildren =
      .ok (.derivedSymbol ⟨d.id, d.extends_, []⟩) := by
  obtain ⟨id, ext, props⟩ := d
  simp only at hp
  subst hp
  simp only [DerivedLibSymbol.toChildren, LibraryId.toSexpr, List.filterMap_cons,
    List.map_nil, List.filterMap_nil, List.cons_append, List.nil_append, List.append_nil]
  rw [symbolDefFast_fromSexpr_derived _ _ (extendsFollows_extendsNode _ _ _ _)]
  rw [libraryId_parse_toStr _ hid]
  simp only [ok_bind, parseDerivedTailFast, expectStringWithName_strNode,
    expectManyGeneric, expectEnd_nil, ok_map]

/-- **C2 (amended)**.  On the shared core grammar — symbol definitions
without property nodes and whose sub-units carry no graphic or pin
content — the owning parser and the zero-copy fast parser agree: both
succeed, and the fast model converted through `From<SymbolDefinitionFast>`
equals the owning model. -/
theorem c2_agreement_amended (d : SymbolDefinition) (h : coreOk d = true) :
    SymbolDefinition.fromSexpr d.toChildren = .ok d ∧
    ∃ df, SymbolDefinitionFast.fromSexprRef d.toChildren = .ok df ∧
      df.toOwning = d := by
  cases d with
  | rootSymbol s =>
    obtain ⟨id, power, hpnum, pn, excl, inb, onb, props, gi, pins, units, emb⟩ := s
    simp only [coreOk, Bool.and_eq_true, List.isEmpty_iff, List.all_eq_true] at h
    obtain ⟨⟨hroot, hprops⟩, hgiu⟩ := h
    subst hprops
    have hroot2 := hroot
    simp only [rootOk, Bool.and_eq_true, Option.isNone_iff_eq_none, List.isEmpty_iff,
      List.all_eq_true] at hroot2
    obtain ⟨⟨⟨⟨⟨⟨⟨-, hexcl⟩, hemb⟩, hgi⟩, hpins⟩, -⟩, -⟩, hunits⟩ := hroot2
    subst hexcl hemb hgi hpins
    have hupins : ∀ u ∈ units, u.pins = [] := by
      intro u hu
      have h3 := hunits u hu
      simp only [unitOk, Bool.and_eq_true, List.isEmpty_iff] at h3
      exact h3.1
    refine ⟨root_parse_build _ hroot, _, rootFast_parse_build _ hroot rfl hgiu, ?_⟩
    have hu2 : List.map LibSymbolSubUnitFast.toOwning
        (List.map LibSymbolSubUnit.toFastCore units) = units := by
      rw [List.map_map]
      have hcongr : ∀ u ∈ units,
          (LibSymbolSubUnitFast.toOwning ∘ LibSymbolSubUnit.toFastCore) u = u := by
        intro u hu
        obtain ⟨a, b, c, dd⟩ := u
        have hg2 := hgiu _ hu
        have hp2 := hupins _ hu
        simp only at hg2 hp2
        subst hg2 hp2
        rfl
      rw [List.map_congr_left hcongr]
      simp
    have hpn2 : Option.map PinNamesFast.toOwning (Option.map PinNames.toFast pn) = pn := by
      cases pn <;> rfl
    simp [SymbolDefinitionFast.toOwning, LibSymbolFast.toOwning, hu2, hpn2]
  | derivedSymbol d =>
    obtain ⟨id, ext, props⟩ := d
    simp only [coreOk, Bool.and_eq_true, List.isEmpty_iff] at h
    obtain ⟨hder, hprops⟩ := h
    subst hprops
    have hid : idOk id = true := by
      have h2 := hder
      simp only [derivedOk, Bool.and_eq_true] at h2
      exact h2.1
    refine ⟨derived_parse_build _ hder, _, derivedFast_parse_build _ hid rfl, ?_⟩
    simp [SymbolDefinitionFast.toOwning, DerivedLibSymbolFast.toOwning]

/-- Witness for the amended C2 at a concrete core symbol exercising both
optional legacy fields and a sub-unit. -/
theorem c2_agreement_amended_witness :
    coreOk (.rootSymbol ⟨⟨"a".toList, "b".toList⟩, true, true, some ⟨some 1, true, true⟩,
      none, true, false, [], [], [], [⟨"u", some "n", [], []⟩], none⟩) = true ∧
    (SymbolDefinition.fromSexpr
        (SymbolDefinition.toChildren (.rootSymbol ⟨⟨"a".toList, "b".toList⟩, true, true,
          some ⟨some 1, true, true⟩, none, true, false, [], [], [],
          [⟨"u", some "n", [], []⟩], none⟩)) =
      .ok (.rootSymbol ⟨⟨"a".toList, "b".toList⟩, true, true, some ⟨some 1, true, true⟩,
        none, true, false, [], [], [], [⟨"u", some "n", [], []⟩], none⟩) ∧
    ∃ df, SymbolDefinitionFast.fromSexprRef
        (SymbolDefinition.toChildren (.rootSymbol ⟨⟨"a".toList, "b".toList⟩, true, true,
          some ⟨some 1, true, true⟩, none, true, false, [], [], [],
          [⟨"u", some "n", [], []⟩], none⟩)) = .ok df ∧
      df.toOwning = (.rootSymbol ⟨⟨"a".toList, "b".toList⟩, true, true,
        some ⟨some 1, true, true⟩, none, true, false, [], [], [],
        [⟨"u", some "n", [], []⟩], none⟩)) :=
  ⟨by decide, c2_agreement_amended _ (by decide)⟩

/-- **C2 (counterexample)**.  On the input
`(symbol "a:b" (exclude_from_sim yes) (in_bom yes) (on_board yes))` the
owning parser fails with `NonMatchingSymbol` (it does not know
`exclude_from_sim`), while the fast parser succeeds — the two strategies
do not agree on every input. -/
theorem c2_agreement_counterexample :
    SymbolDefinition.fromSexpr
        [.symbol "symbol", .str "a:b",
          .list [.symbol "exclude_from_sim", .symbol "yes"],
          .list [.symbol "in_bom", .symbol "yes"],
          .list [.symbol "on_board", .symbol "yes"]] =
      .error (.nonMatchingSymbol "exclude_from_sim" "in_bom") ∧
    (SymbolDefinitionFast.fromSexprRef
        [.symbol "symbol", .str "a:b",
          .list [.symbol "exclude_from_sim", .symbol "yes"],
          .list [.symbol "in_bom", .symbol "yes"],
          .list [.symbol "on_board", .symbol "yes"]]).isOk = true := by
  refine ⟨by decide, by decide⟩

end Kicad
